import Mathlib

/-!
Verification of the dumq-amqp AMQP 1.0 client library core against its
specification.  The Rust sources (src/codec.rs, src/types.rs, src/message.rs,
src/link.rs, src/connection.rs, src/network.rs, src/condition.rs,
src/error.rs) are shallowly embedded below: octet buffers become `List Nat`
(each element a byte value), Rust `u8`/`u16`/`u32`/`u64`/`u128` become `Nat`
with explicit range side conditions and `% 2 ^ w` where Rust `as` casts
truncate, signed integers become `Int` in two's-complement range, `f32`/`f64`
become their verbatim bit patterns (the codec copies the bits through
untouched), and fallible Rust functions return `Except` or the three-valued
`Outcome` (which additionally records a panic of the `bytes` crate on buffer
underflow).  Recursive decoding carries an explicit fuel argument; every
theorem that needs it quantifies over sufficiently large fuel.
-/

namespace DumqAmqp

/-- Big-endian byte list of the low `k` bytes of `n` (most significant first).
Models the `put_u8`/`put_u16`/`put_u32`/`put_u64`/`put_u128` writes of the
`bytes` crate together with Rust's truncating `as` casts. -/
def beBytes : Nat → Nat → List Nat
  | 0, _ => []
  | k + 1, n => (n / 256 ^ k) % 256 :: beBytes k (n % 256 ^ k)

/-- Big-endian value of a byte list, models `get_u16`/`get_u32`/... reads. -/
def fromBe (bs : List Nat) : Nat :=
  bs.foldl (fun acc b => acc * 256 + b) 0

/-- Two's-complement bit pattern of a signed integer of width `w` bits,
models Rust's `put_i8`/`put_i16`/`put_i32`/`put_i64`. -/
def toU (w : Nat) (x : Int) : Nat :=
  (x % (2 ^ w : Nat)).toNat

/-- Signed value of a `w`-bit two's-complement bit pattern, models
`get_i8`/`get_i16`/`get_i32`/`get_i64`. -/
def fromTwos (w : Nat) (n : Nat) : Int :=
  if n < 2 ^ (w - 1) then (n : Int) else (n : Int) - (2 ^ w : Nat)

/-- Continuation byte test of UTF-8 (second and later bytes of a sequence). -/
def utf8Cont (b : Nat) : Bool :=
  0x80 ≤ b && b ≤ 0xBF

/-- Whether a byte sequence is valid UTF-8, exactly the acceptance condition
of Rust's `String::from_utf8` (RFC 3629: no overlong forms, no surrogate
code points, nothing above U+10FFFF). -/
def validUtf8 : List Nat → Bool
  | [] => true
  | b :: rest =>
    if b < 0x80 then validUtf8 rest
    else if b < 0xC2 then false
    else if b < 0xE0 then
      match rest with
      | c1 :: r => utf8Cont c1 && validUtf8 r
      | [] => false
    else if b = 0xE0 then
      match rest with
      | c1 :: c2 :: r => (0xA0 ≤ c1 && c1 ≤ 0xBF) && utf8Cont c2 && validUtf8 r
      | _ => false
    else if b < 0xED then
      match rest with
      | c1 :: c2 :: r => utf8Cont c1 && utf8Cont c2 && validUtf8 r
      | _ => false
    else if b = 0xED then
      match rest with
      | c1 :: c2 :: r => (0x80 ≤ c1 && c1 ≤ 0x9F) && utf8Cont c2 && validUtf8 r
      | _ => false
    else if b < 0xF0 then
      match rest with
      | c1 :: c2 :: r => utf8Cont c1 && utf8Cont c2 && validUtf8 r
      | _ => false
    else if b = 0xF0 then
      match rest with
      | c1 :: c2 :: c3 :: r => (0x90 ≤ c1 && c1 ≤ 0xBF) && utf8Cont c2 && utf8Cont c3 && validUtf8 r
      | _ => false
    else if b < 0xF4 then
      match rest with
      | c1 :: c2 :: c3 :: r => utf8Cont c1 && utf8Cont c2 && utf8Cont c3 && validUtf8 r
      | _ => false
    else if b = 0xF4 then
      match rest with
      | c1 :: c2 :: c3 :: r => (0x80 ≤ c1 && c1 ≤ 0x8F) && utf8Cont c2 && utf8Cont c3 && validUtf8 r
      | _ => false
    else false

/-- Whether `n` is a Unicode scalar value; `char::from_u32 n` succeeds
exactly when this holds. -/
def isScalar (n : Nat) : Bool :=
  n < 0xD800 || (0xE000 ≤ n && n < 0x110000)

/-- Lowercase hexadecimal digit. -/
def hexDigit (n : Nat) : Char :=
  if n < 10 then Char.ofNat (48 + n) else Char.ofNat (87 + n)

/-- Two lowercase hex digits of a byte, the rendering of Rust's
format specifier 02x on a `u8`. -/
def hex2 (n : Nat) : String :=
  String.mk [hexDigit (n / 16 % 16), hexDigit (n % 16)]

/-- AmqpCondition of src/condition.rs: the closed enum of named protocol
conditions plus the `Custom` escape hatch. -/
inductive AmqpCondition where
  | Ok
  | Accepted
  | Released
  | Modified
  | AmqpErrorConnectionForced
  | AmqpErrorFramingError
  | AmqpErrorConnectionRedirect
  | AmqpErrorWindowViolation
  | AmqpErrorErrantLink
  | AmqpErrorHandleInUse
  | AmqpErrorDetachForced
  | AmqpErrorTransferLimitExceeded
  | AmqpErrorMessageSizeExceeded
  | AmqpErrorLinkRedirect
  | AmqpErrorTransferRefused
  | AmqpErrorStolen
  | AmqpErrorResourceDeleted
  | AmqpErrorResourceLimitExceeded
  | AmqpErrorResourceLocked
  | AmqpErrorPreconditionFailed
  | AmqpErrorResourceNameCollision
  | AmqpErrorUnauthorizedAccess
  | AmqpErrorNotAllowed
  | AmqpErrorNotImplemented
  | AmqpErrorNotModified
  | AmqpErrorDecodeError
  | AmqpErrorInvalidField
  | AmqpErrorNotAccepted
  | AmqpErrorRejected
  | AmqpErrorInternalError
  | AmqpErrorIllegalState
  | Custom (s : String)
deriving DecidableEq

/-- AmqpCondition::is_success of src/condition.rs. -/
def AmqpCondition.is_success : AmqpCondition → Bool
  | .Ok => true
  | .Accepted => true
  | .Released => true
  | .Modified => true
  | _ => false

/-- AmqpCondition::is_error of src/condition.rs: negation of `is_success`,
with an extra disjunct forcing every `Custom` condition to count as error. -/
def AmqpCondition.is_error (c : AmqpCondition) : Bool :=
  !c.is_success || (match c with | .Custom _ => true | _ => false)

/-- AmqpError of src/error.rs (the `Io` and `Serialization` payloads, foreign
error types in Rust, are abstracted to their display strings). -/
inductive AmqpError where
  | Connection (s : String)
  | Session (s : String)
  | Link (s : String)
  | Transport (s : String)
  | Encoding (s : String)
  | Decoding (s : String)
  | Protocol (s : String)
  | Timeout (s : String)
  | Io (s : String)
  | Serialization (s : String)
  | InvalidState (s : String)
  | NotImplemented (s : String)
  | AmqpProtocol (condition : AmqpCondition) (description : String)
deriving DecidableEq

/-- Result of running a fallible Rust decode step: normal `Result::Ok`,
normal `Result::Err`, or a panic of the `bytes` crate on buffer underflow
(`get_u8`/`get_u32` called with too few remaining octets). -/
inductive Outcome (α : Type) where
  | ok (a : α)
  | err (e : AmqpError)
  | panicked

instance : Monad Outcome where
  pure := .ok
  bind m f :=
    match m with
    | .ok a => f a
    | .err e => .err e
    | .panicked => .panicked

/-- AmqpValue of src/types.rs.  `String` and `AmqpSymbol` payloads are the
UTF-8 byte sequences of the Rust strings, `f32`/`f64` are their bit patterns,
`uuid::Uuid` is its 128-bit value, and `AmqpMap` (a `HashMap` keyed by
`AmqpSymbol`) is one iteration order of its entries. -/
inductive AmqpValue where
  | null
  | boolean (b : Bool)
  | ubyte (n : Nat)
  | ushort (n : Nat)
  | uint (n : Nat)
  | ulong (n : Nat)
  | byte (x : Int)
  | short (x : Int)
  | int (x : Int)
  | long (x : Int)
  | float (bits : Nat)
  | double (bits : Nat)
  | decimal32 (n : Nat)
  | decimal64 (n : Nat)
  | decimal128 (n : Nat)
  | char (n : Nat)
  | timestamp (x : Int)
  | uuid (n : Nat)
  | binary (bs : List Nat)
  | string (bs : List Nat)
  | symbol (bs : List Nat)
  | list (xs : List AmqpValue)
  | map (m : List (List Nat × AmqpValue))
  | array (xs : List AmqpValue)

/-- Encoder::encode_binary of src/codec.rs. -/
def encode_binary (bs : List Nat) : List Nat :=
  (if bs.length ≤ 255 then 0xa0 :: beBytes 1 bs.length
   else 0xb0 :: beBytes 4 bs.length) ++ bs

/-- Encoder::encode_string of src/codec.rs. -/
def encode_string (bs : List Nat) : List Nat :=
  (if bs.length ≤ 255 then 0xa1 :: beBytes 1 bs.length
   else 0xb1 :: beBytes 4 bs.length) ++ bs

/-- Encoder::encode_symbol of src/codec.rs. -/
def encode_symbol (bs : List Nat) : List Nat :=
  (if bs.length ≤ 255 then 0xa3 :: beBytes 1 bs.length
   else 0xb3 :: beBytes 4 bs.length) ++ bs

mutual

/-- Encoder::encode_value of src/codec.rs: type code octet followed by the
payload.  The encoder appends to a growing buffer; functionally that is the
concatenation below. -/
def encode_value : AmqpValue → List Nat
  | .null => [0x40]
  | .boolean true => [0x41]
  | .boolean false => [0x42]
  | .ubyte n => 0x50 :: beBytes 1 n
  | .ushort n => 0x60 :: beBytes 2 n
  | .uint n => 0x70 :: beBytes 4 n
  | .ulong n => 0x80 :: beBytes 8 n
  | .byte x => 0x51 :: beBytes 1 (toU 8 x)
  | .short x => 0x61 :: beBytes 2 (toU 16 x)
  | .int x => 0x71 :: beBytes 4 (toU 32 x)
  | .long x => 0x81 :: beBytes 8 (toU 64 x)
  | .float bits => 0x72 :: beBytes 4 bits
  | .double bits => 0x82 :: beBytes 8 bits
  | .decimal32 n => 0x74 :: beBytes 4 n
  | .decimal64 n => 0x84 :: beBytes 8 n
  | .decimal128 n => 0x94 :: beBytes 16 n
  | .char n => 0x73 :: beBytes 4 n
  | .timestamp x => 0x83 :: beBytes 8 (toU 64 x)
  | .uuid n => 0x98 :: beBytes 16 n
  | .binary bs => encode_binary bs
  | .string bs => encode_string bs
  | .symbol bs => encode_symbol bs
  | .list xs =>
    (if xs.isEmpty then [0x45]
     else if xs.length ≤ 255 then 0xc0 :: beBytes 1 xs.length
     else 0xd0 :: beBytes 4 xs.length) ++ encode_seq xs
  | .map m =>
    (if m.isEmpty then [0xc1, 0]
     else if m.length ≤ 127 then 0xc1 :: beBytes 1 m.length
     else 0xd1 :: beBytes 4 m.length) ++ encode_entries m
  | .array xs =>
    (if (encode_seq xs).length ≤ 255 then
       0xe0 :: (beBytes 1 (encode_seq xs).length ++ beBytes 1 xs.length)
     else
       0xf0 :: (beBytes 4 (encode_seq xs).length ++ beBytes 4 xs.length)) ++ encode_seq xs

/-- Sequential encoding of list items (the item loop of `encode_list`, the
element loop of `encode_array`). -/
def encode_seq : List AmqpValue → List Nat
  | [] => []
  | x :: xs => encode_value x ++ encode_seq xs

/-- Sequential encoding of map entries (the entry loop of `encode_map`):
each key through `encode_symbol`, each value through `encode_value`. -/
def encode_entries : List (List Nat × AmqpValue) → List Nat
  | [] => []
  | (k, v) :: rest => encode_symbol k ++ encode_value v ++ encode_entries rest

end

/-- Pairwise distinctness of map keys. -/
def nodup_keys : List (List Nat × AmqpValue) → Bool
  | [] => true
  | e :: rest => !(rest.any (fun e2 => decide (e2.1 = e.1))) && nodup_keys rest

mutual

/-- Range and representation side conditions making a model value denote an
actual Rust `AmqpValue`: machine integers within their width, chars Unicode
scalars, strings and symbols valid UTF-8, payload lengths within the 32-bit
length prefixes, map keys distinct (they come from a `HashMap`). -/
def wf_value : AmqpValue → Bool
  | .null => true
  | .boolean _ => true
  | .ubyte n => n < 2 ^ 8
  | .ushort n => n < 2 ^ 16
  | .uint n => n < 2 ^ 32
  | .ulong n => n < 2 ^ 64
  | .byte x => -(2 ^ 7) ≤ x && x < 2 ^ 7
  | .short x => -(2 ^ 15) ≤ x && x < 2 ^ 15
  | .int x => -(2 ^ 31) ≤ x && x < 2 ^ 31
  | .long x => -(2 ^ 63) ≤ x && x < 2 ^ 63
  | .float bits => bits < 2 ^ 32
  | .double bits => bits < 2 ^ 64
  | .decimal32 n => n < 2 ^ 32
  | .decimal64 n => n < 2 ^ 64
  | .decimal128 n => n < 2 ^ 128
  | .char n => isScalar n
  | .timestamp x => -(2 ^ 63) ≤ x && x < 2 ^ 63
  | .uuid n => n < 2 ^ 128
  | .binary bs => bs.all (fun b => b < 256) && bs.length < 2 ^ 32
  | .string bs => validUtf8 bs && bs.length < 2 ^ 32
  | .symbol bs => validUtf8 bs && bs.length < 2 ^ 32
  | .list xs => xs.length < 2 ^ 32 && wf_seq xs
  | .map m => m.length < 2 ^ 32 && nodup_keys m && wf_entries m
  | .array xs => (encode_seq xs).length < 2 ^ 32 && wf_seq xs

/-- All elements well formed. -/
def wf_seq : List AmqpValue → Bool
  | [] => true
  | x :: xs => wf_value x && wf_seq xs

/-- All keys valid UTF-8 symbols within length bounds, all values well
formed. -/
def wf_entries : List (List Nat × AmqpValue) → Bool
  | [] => true
  | (k, v) :: rest =>
    validUtf8 k && k.length < 2 ^ 32 && wf_value v && wf_entries rest

end

mutual

/-- Whether no Decimal32/Decimal64/Decimal128 occurs anywhere in the value. -/
def decimal_free : AmqpValue → Bool
  | .decimal32 _ => false
  | .decimal64 _ => false
  | .decimal128 _ => false
  | .list xs => df_seq xs
  | .map m => df_entries m
  | .array xs => df_seq xs
  | _ => true

/-- All elements decimal-free. -/
def df_seq : List AmqpValue → Bool
  | [] => true
  | x :: xs => decimal_free x && df_seq xs

/-- All entry values decimal-free. -/
def df_entries : List (List Nat × AmqpValue) → Bool
  | [] => true
  | e :: rest => decimal_free e.2 && df_entries rest

end

mutual

/-- Recursion fuel sufficient to decode the encoding of a value. -/
def fuelV : AmqpValue → Nat
  | .list xs => fuelSeq xs + 1
  | .map m => fuelEntries m + 1
  | .array xs => fuelSeq xs + 1
  | _ => 1

/-- Fuel sufficient to decode a sequence of encoded items. -/
def fuelSeq : List AmqpValue → Nat
  | [] => 0
  | x :: xs => max (fuelV x) (fuelSeq xs) + 1

/-- Fuel sufficient to decode a sequence of encoded map entries. -/
def fuelEntries : List (List Nat × AmqpValue) → Nat
  | [] => 0
  | e :: rest => max (fuelV e.2) (fuelEntries rest) + 1

end

/-- Guarded read of `k` octets: the `if remaining < k return Err` pattern of
the decode helpers of src/codec.rs followed by `copy_to_bytes`. -/
def read_exact (k : Nat) (msg : String) (buf : List Nat) :
    Outcome (List Nat × List Nat) :=
  if buf.length < k then .err (.Decoding msg) else .ok (buf.take k, buf.drop k)

/-- Guarded big-endian numeric read of `k` octets. -/
def read_be (k : Nat) (msg : String) (buf : List Nat) :
    Outcome (Nat × List Nat) :=
  if buf.length < k then .err (.Decoding msg)
  else .ok (fromBe (buf.take k), buf.drop k)

/-- Unguarded big-endian read (`get_u8`/`get_u32` of the `bytes` crate with
no preceding remaining-length check): panics on underflow. -/
def get_be (k : Nat) (buf : List Nat) : Outcome (Nat × List Nat) :=
  if buf.length < k then .panicked
  else .ok (fromBe (buf.take k), buf.drop k)

/-- Decoder::decode_symbol8 of src/codec.rs, after the type code octet. -/
def decode_symbol8_body (buf : List Nat) : Outcome (List Nat × List Nat) := do
  let (len, r) ← read_be 1 "Insufficient data for symbol8" buf
  let (d, r) ← read_exact len "Insufficient data for symbol8" r
  if validUtf8 d then .ok (d, r) else .err (.Decoding "Invalid UTF-8 symbol")

/-- Decoder::decode_symbol32 of src/codec.rs, after the type code octet. -/
def decode_symbol32_body (buf : List Nat) : Outcome (List Nat × List Nat) := do
  let (len, r) ← read_be 4 "Insufficient data for symbol32" buf
  let (d, r) ← read_exact len "Insufficient data for symbol32" r
  if validUtf8 d then .ok (d, r) else .err (.Decoding "Invalid UTF-8 symbol")

/-- Decoder::decode_symbol of src/codec.rs: the key reader of the map entry
loop. -/
def decode_symbol (buf : List Nat) : Outcome (List Nat × List Nat) :=
  match buf with
  | [] => .err (.Decoding "No data to decode")
  | c :: r =>
    if c = 0xa3 then decode_symbol8_body r
    else if c = 0xb3 then decode_symbol32_body r
    else .err (.Decoding ("Invalid symbol type code: " ++ toString c))

/-- HashMap::insert on the entry-list model: replace the value of an existing
key, otherwise append the new entry. -/
def insert_entry (m : List (List Nat × AmqpValue)) (k : List Nat)
    (v : AmqpValue) : List (List Nat × AmqpValue) :=
  if m.any (fun e => decide (e.1 = k)) then
    m.map (fun e => if e.1 = k then (k, v) else e)
  else m ++ [(k, v)]

mutual

/-- Decoder::decode_value of src/codec.rs.  The first argument is recursion
fuel (an embedding artifact: the Rust recursion is bounded by the buffer
length, and every theorem quantifies over sufficiently large fuel); it
decreases on every recursive step.  Branches appear in the order of the Rust
match; note that there is no branch for the Decimal32/Decimal64/Decimal128
or wide-Boolean type codes, which therefore fall through to the
unknown-type-code error, and that the List8/List32/Map8/Map32 count reads
are unguarded `get_u8`/`get_u32` calls which panic on a short buffer. -/
def decode_value : Nat → List Nat → Outcome (AmqpValue × List Nat)
  | 0, _ => .err (.Decoding "recursion limit exceeded")
  | fuel + 1, buf =>
    match buf with
    | [] => .err (.Decoding "Unexpected end of data")
    | c :: r =>
      if c = 0x40 then .ok (.null, r)
      else if c = 0x41 then .ok (.boolean true, r)
      else if c = 0x42 then .ok (.boolean false, r)
      else if c = 0x50 then do
        let (n, r) ← read_be 1 "Insufficient data for ubyte" r
        .ok (.ubyte n, r)
      else if c = 0x60 then do
        let (n, r) ← read_be 2 "Insufficient data for ushort" r
        .ok (.ushort n, r)
      else if c = 0x70 then do
        let (n, r) ← read_be 4 "Insufficient data for uint" r
        .ok (.uint n, r)
      else if c = 0x80 then do
        let (n, r) ← read_be 8 "Insufficient data for ulong" r
        .ok (.ulong n, r)
      else if c = 0x51 then do
        let (n, r) ← read_be 1 "Insufficient data for byte" r
        .ok (.byte (fromTwos 8 n), r)
      else if c = 0x61 then do
        let (n, r) ← read_be 2 "Insufficient data for short" r
        .ok (.short (fromTwos 16 n), r)
      else if c = 0x71 then do
        let (n, r) ← read_be 4 "Insufficient data for int" r
        .ok (.int (fromTwos 32 n), r)
      else if c = 0x81 then do
        let (n, r) ← read_be 8 "Insufficient data for long" r
        .ok (.long (fromTwos 64 n), r)
      else if c = 0x72 then do
        let (n, r) ← read_be 4 "Insufficient data for float" r
        .ok (.float n, r)
      else if c = 0x82 then do
        let (n, r) ← read_be 8 "Insufficient data for double" r
        .ok (.double n, r)
      else if c = 0x73 then do
        let (n, r) ← read_be 4 "Insufficient data for char" r
        if isScalar n then .ok (.char n, r)
        else .err (.Decoding "Invalid UTF-8 code point")
      else if c = 0x83 then do
        let (n, r) ← read_be 8 "Insufficient data for timestamp" r
        .ok (.timestamp (fromTwos 64 n), r)
      else if c = 0x98 then do
        let (n, r) ← read_be 16 "Insufficient data for UUID" r
        .ok (.uuid n, r)
      else if c = 0xa0 then do
        let (len, r) ← read_be 1 "Insufficient data for binary8 length" r
        let (d, r) ← read_exact len "Insufficient data for binary8" r
        .ok (.binary d, r)
      else if c = 0xb0 then do
        let (len, r) ← read_be 4 "Insufficient data for binary32 length" r
        let (d, r) ← read_exact len "Insufficient data for binary32" r
        .ok (.binary d, r)
      else if c = 0xa1 then do
        let (len, r) ← read_be 1 "Insufficient data for string8 length" r
        let (d, r) ← read_exact len "Insufficient data for string8" r
        if validUtf8 d then .ok (.string d, r)
        else .err (.Decoding "Invalid UTF-8 string")
      else if c = 0xb1 then do
        let (len, r) ← read_be 4 "Insufficient data for string32 length" r
        let (d, r) ← read_exact len "Insufficient data for string32" r
        if validUtf8 d then .ok (.string d, r)
        else .err (.Decoding "Invalid UTF-8 string")
      else if c = 0xa3 then do
        let (d, r) ← decode_symbol8_body r
        .ok (.symbol d, r)
      else if c = 0xb3 then do
        let (d, r) ← decode_symbol32_body r
        .ok (.symbol d, r)
      else if c = 0x45 then .ok (.list [], r)
      else if c = 0xc0 then do
        let (count, r) ← get_be 1 r
        let (items, r) ← decode_many fuel count r
        .ok (.list items, r)
      else if c = 0xd0 then do
        let (count, r) ← get_be 4 r
        let (items, r) ← decode_many fuel count r
        .ok (.list items, r)
      else if c = 0xc1 then do
        let (count, r) ← get_be 1 r
        let (entries, r) ← decode_entries fuel count [] r
        .ok (.map entries, r)
      else if c = 0xd1 then do
        let (count, r) ← get_be 4 r
        let (entries, r) ← decode_entries fuel count [] r
        .ok (.map entries, r)
      else if c = 0xe0 then
        if r.length < 2 then .err (.Decoding "Insufficient data for array8 header")
        else
          let size := fromBe (r.take 1)
          let count := fromBe ((r.drop 1).take 1)
          let r2 := r.drop 2
          if r2.length < size then .err (.Decoding "Insufficient data for array8")
          else do
            let (items, r3) ← decode_many fuel count r2
            .ok (.array items, r3)
      else if c = 0xf0 then
        if r.length < 8 then .err (.Decoding "Insufficient data for array32 header")
        else
          let size := fromBe (r.take 4)
          let count := fromBe ((r.drop 4).take 4)
          let r2 := r.drop 8
          if r2.length < size then .err (.Decoding "Insufficient data for array32")
          else do
            let (items, r3) ← decode_many fuel count r2
            .ok (.array items, r3)
      else .err (.Decoding ("Unknown type code: 0x" ++ hex2 c))

/-- Item loop of the List8/List32/Array8/Array32 branches of `decode_value`:
decode `count` successive values. -/
def decode_many : Nat → Nat → List Nat → Outcome (List AmqpValue × List Nat)
  | _, 0, buf => .ok ([], buf)
  | 0, _ + 1, _ => .err (.Decoding "recursion limit exceeded")
  | fuel + 1, count + 1, buf => do
    let (v, r) ← decode_value fuel buf
    let (vs, r2) ← decode_many fuel count r
    .ok (v :: vs, r2)

/-- Entry loop of the Map8/Map32 branches of `decode_value`: decode `count`
key-value pairs, inserting each into the map being built. -/
def decode_entries : Nat → Nat → List (List Nat × AmqpValue) → List Nat →
    Outcome (List (List Nat × AmqpValue) × List Nat)
  | _, 0, acc, buf => .ok (acc, buf)
  | 0, _ + 1, _, _ => .err (.Decoding "recursion limit exceeded")
  | fuel + 1, count + 1, acc, buf => do
    let (k, r) ← decode_symbol buf
    let (v, r2) ← decode_value fuel r
    decode_entries fuel count (insert_entry acc k v) r2

end

/-- Header of src/message.rs. -/
structure Header where
  durable : Option Bool
  priority : Option Nat
  ttl : Option Nat
  first_acquirer : Option Bool
  delivery_count : Option Nat
deriving DecidableEq

/-- Header::new of src/message.rs. -/
def Header.new : Header :=
  ⟨none, none, none, none, none⟩

/-- Properties of src/message.rs (strings and symbols as UTF-8 bytes,
timestamps as `i64`). -/
structure Properties where
  message_id : Option AmqpValue
  user_id : Option (List Nat)
  «to» : Option (List Nat)
  subject : Option (List Nat)
  reply_to : Option (List Nat)
  correlation_id : Option AmqpValue
  content_type : Option (List Nat)
  content_encoding : Option (List Nat)
  absolute_expiry_time : Option Int
  creation_time : Option Int
  group_id : Option (List Nat)
  group_sequence : Option Nat
  reply_to_group_id : Option (List Nat)

/-- Properties::new of src/message.rs. -/
def Properties.new : Properties :=
  ⟨none, none, none, none, none, none, none, none, none, none, none, none, none⟩

/-- Body of src/message.rs. -/
inductive Body where
  | Data (bs : List Nat)
  | Value (v : AmqpValue)
  | Sequence (xs : List AmqpValue)
  | Multiple (bodies : List Body)

/-- Message of src/message.rs: seven optional sections. -/
structure Message where
  header : Option Header
  delivery_annotations : Option (List (List Nat × AmqpValue))
  message_annotations : Option (List (List Nat × AmqpValue))
  properties : Option Properties
  application_properties : Option (List (List Nat × AmqpValue))
  body : Option Body
  footer : Option (List (List Nat × AmqpValue))

/-- Message::new of src/message.rs. -/
def Message.new : Message :=
  ⟨none, none, none, none, none, none, none⟩

/-- UTF-8 bytes of the key string "durable". -/
def key_durable : List Nat := [100, 117, 114, 97, 98, 108, 101]

/-- UTF-8 bytes of the key string "priority". -/
def key_priority : List Nat := [112, 114, 105, 111, 114, 105, 116, 121]

/-- UTF-8 bytes of the key string "ttl". -/
def key_ttl : List Nat := [116, 116, 108]

/-- UTF-8 bytes of the key string with the letters first, underscore,
acquirer. -/
def key_first_acquirer : List Nat :=
  [102, 105, 114, 115, 116, 95, 97, 99, 113, 117, 105, 114, 101, 114]

/-- UTF-8 bytes of the key string with the letters delivery, underscore,
count. -/
def key_delivery_count : List Nat :=
  [100, 101, 108, 105, 118, 101, 114, 121, 95, 99, 111, 117, 110, 116]

/-- UTF-8 bytes of the key string with the letters message, underscore, id. -/
def key_message_id : List Nat :=
  [109, 101, 115, 115, 97, 103, 101, 95, 105, 100]

/-- UTF-8 bytes of the key string with the letters user, underscore, id. -/
def key_user_id : List Nat := [117, 115, 101, 114, 95, 105, 100]

/-- UTF-8 bytes of the key string "to". -/
def key_to : List Nat := [116, 111]

/-- UTF-8 bytes of the key string "subject". -/
def key_subject : List Nat := [115, 117, 98, 106, 101, 99, 116]

/-- UTF-8 bytes of the key string with the letters reply, underscore, to. -/
def key_reply_to : List Nat := [114, 101, 112, 108, 121, 95, 116, 111]

/-- UTF-8 bytes of the key string with the letters correlation, underscore,
id. -/
def key_correlation_id : List Nat :=
  [99, 111, 114, 114, 101, 108, 97, 116, 105, 111, 110, 95, 105, 100]

/-- UTF-8 bytes of the key string with the letters content, underscore,
type. -/
def key_content_type : List Nat :=
  [99, 111, 110, 116, 101, 110, 116, 95, 116, 121, 112, 101]

/-- UTF-8 bytes of the key string with the letters content, underscore,
encoding. -/
def key_content_encoding : List Nat :=
  [99, 111, 110, 116, 101, 110, 116, 95, 101, 110, 99, 111, 100, 105, 110, 103]

/-- UTF-8 bytes of the key string with the letters absolute, expiry, time
separated by underscores. -/
def key_absolute_expiry_time : List Nat :=
  [97, 98, 115, 111, 108, 117, 116, 101, 95, 101, 120, 112, 105, 114, 121, 95, 116, 105, 109, 101]

/-- UTF-8 bytes of the key string with the letters creation, underscore,
time. -/
def key_creation_time : List Nat :=
  [99, 114, 101, 97, 116, 105, 111, 110, 95, 116, 105, 109, 101]

/-- UTF-8 bytes of the key string with the letters group, underscore, id. -/
def key_group_id : List Nat := [103, 114, 111, 117, 112, 95, 105, 100]

/-- UTF-8 bytes of the key string with the letters group, underscore,
sequence. -/
def key_group_sequence : List Nat :=
  [103, 114, 111, 117, 112, 95, 115, 101, 113, 117, 101, 110, 99, 101]

/-- UTF-8 bytes of the key string with the letters reply, to, group, id
separated by underscores. -/
def key_reply_to_group_id : List Nat :=
  [114, 101, 112, 108, 121, 95, 116, 111, 95, 103, 114, 111, 117, 112, 95, 105, 100]

/-- Single optional map entry: present when the section field is set. -/
def optHead (e : List Nat × Option AmqpValue) : List (List Nat × AmqpValue) :=
  match e.2 with
  | some v => [(e.1, v)]
  | none => []

/-- Entry list of the field-keyed map built by `encode_message`: one entry
per present field, in the insertion order of the Rust source. -/
def opt_entries : List (List Nat × Option AmqpValue) → List (List Nat × AmqpValue)
  | [] => []
  | e :: rest => optHead e ++ opt_entries rest

/-- Header map built by Encoder::encode_message of src/codec.rs. -/
def header_map (h : Header) : List (List Nat × AmqpValue) :=
  opt_entries [
    (key_durable, h.durable.map AmqpValue.boolean),
    (key_priority, h.priority.map AmqpValue.ubyte),
    (key_ttl, h.ttl.map AmqpValue.uint),
    (key_first_acquirer, h.first_acquirer.map AmqpValue.boolean),
    (key_delivery_count, h.delivery_count.map AmqpValue.uint)]

/-- Properties map built by Encoder::encode_message of src/codec.rs. -/
def props_map (p : Properties) : List (List Nat × AmqpValue) :=
  opt_entries [
    (key_message_id, p.message_id),
    (key_user_id, p.user_id.map AmqpValue.binary),
    (key_to, p.«to».map AmqpValue.string),
    (key_subject, p.subject.map AmqpValue.string),
    (key_reply_to, p.reply_to.map AmqpValue.string),
    (key_correlation_id, p.correlation_id),
    (key_content_type, p.content_type.map AmqpValue.symbol),
    (key_content_encoding, p.content_encoding.map AmqpValue.symbol),
    (key_absolute_expiry_time, p.absolute_expiry_time.map AmqpValue.timestamp),
    (key_creation_time, p.creation_time.map AmqpValue.timestamp),
    (key_group_id, p.group_id.map AmqpValue.string),
    (key_group_sequence, p.group_sequence.map AmqpValue.uint),
    (key_reply_to_group_id, p.reply_to_group_id.map AmqpValue.string)]

/-- HashMap::get on the entry-list model (first matching key). -/
def map_get (m : List (List Nat × AmqpValue)) (k : List Nat) : Option AmqpValue :=
  match m with
  | [] => none
  | e :: rest => if e.1 = k then some e.2 else map_get rest k

/-- Header reconstruction of Decoder::decode_message of src/codec.rs: start
from Header::new and set each field whose key is present with the matching
value shape. -/
def header_from_map (mp : List (List Nat × AmqpValue)) : Header where
  durable := match map_get mp key_durable with
    | some (.boolean b) => some b
    | _ => none
  priority := match map_get mp key_priority with
    | some (.ubyte n) => some n
    | _ => none
  ttl := match map_get mp key_ttl with
    | some (.uint n) => some n
    | _ => none
  first_acquirer := match map_get mp key_first_acquirer with
    | some (.boolean b) => some b
    | _ => none
  delivery_count := match map_get mp key_delivery_count with
    | some (.uint n) => some n
    | _ => none

/-- Properties reconstruction of Decoder::decode_message of src/codec.rs.
The message-id and correlation-id fields accept any value; the typed fields
are set only when the value has the matching shape. -/
def props_from_map (mp : List (List Nat × AmqpValue)) : Properties where
  message_id := map_get mp key_message_id
  user_id := match map_get mp key_user_id with
    | some (.binary bs) => some bs
    | _ => none
  «to» := match map_get mp key_to with
    | some (.string s) => some s
    | _ => none
  subject := match map_get mp key_subject with
    | some (.string s) => some s
    | _ => none
  reply_to := match map_get mp key_reply_to with
    | some (.string s) => some s
    | _ => none
  correlation_id := map_get mp key_correlation_id
  content_type := match map_get mp key_content_type with
    | some (.symbol s) => some s
    | _ => none
  content_encoding := match map_get mp key_content_encoding with
    | some (.symbol s) => some s
    | _ => none
  absolute_expiry_time := match map_get mp key_absolute_expiry_time with
    | some (.timestamp t) => some t
    | _ => none
  creation_time := match map_get mp key_creation_time with
    | some (.timestamp t) => some t
    | _ => none
  group_id := match map_get mp key_group_id with
    | some (.string s) => some s
    | _ => none
  group_sequence := match map_get mp key_group_sequence with
    | some (.uint n) => some n
    | _ => none
  reply_to_group_id := match map_get mp key_reply_to_group_id with
    | some (.string s) => some s
    | _ => none

/-- Inner body encoding of the Body::Multiple loop of `encode_message`
(a nested Multiple is rejected with an encoding error). -/
def encode_inner_body : Body → Except AmqpError (List Nat)
  | .Value v => .ok (encode_value v)
  | .Data d => .ok (encode_binary d)
  | .Sequence xs => .ok (encode_seq xs)
  | .Multiple _ => .error (.Encoding "Nested multiple bodies not supported")

/-- Loop over the parts of a Body::Multiple. -/
def encode_multiple : List Body → Except AmqpError (List Nat)
  | [] => .ok []
  | b :: rest => do
    let x ← encode_inner_body b
    let y ← encode_multiple rest
    .ok (x ++ y)

/-- Body section encoding of Encoder::encode_message of src/codec.rs. -/
def encode_body : Body → Except AmqpError (List Nat)
  | .Value v => .ok (encode_value v)
  | .Data d => .ok (encode_binary d)
  | .Sequence xs => .ok (encode_seq xs)
  | .Multiple bodies => encode_multiple bodies

/-- Encoder::encode_message of src/codec.rs: header section as a field-keyed
map, then properties as a map, then the body octets.  The delivery
annotations, message annotations, application properties and footer sections
are never written. -/
def encode_message (m : Message) : Except AmqpError (List Nat) := do
  let h := match m.header with
    | some h => encode_value (.map (header_map h))
    | none => []
  let p := match m.properties with
    | some p => encode_value (.map (props_map p))
    | none => []
  let b ← match m.body with
    | some bd => encode_body bd
    | none => Except.ok ([] : List Nat)
  .ok (h ++ p ++ b)

/-- Decoder::decode_message of src/codec.rs: up to three values are decoded
in sequence; the first becomes the header when it is a map, the second the
properties when it is a map, the third always becomes a Value body. -/
def decode_message (fuel : Nat) (buf : List Nat) : Outcome Message :=
  let m0 : Message := Message.new
  if buf.isEmpty then .ok m0
  else
    match decode_value fuel buf with
    | .err e => .err e
    | .panicked => .panicked
    | .ok (v1, r1) =>
      let m1 := match v1 with
        | .map mp => { m0 with header := some (header_from_map mp) }
        | _ => m0
      if r1.isEmpty then .ok m1
      else
        match decode_value fuel r1 with
        | .err e => .err e
        | .panicked => .panicked
        | .ok (v2, r2) =>
          let m2 := match v2 with
            | .map mp => { m1 with properties := some (props_from_map mp) }
            | _ => m1
          if r2.isEmpty then .ok m2
          else
            match decode_value fuel r2 with
            | .err e => .err e
            | .panicked => .panicked
            | .ok (v3, _) => .ok { m2 with body := some (.Value v3) }

/-- LinkState of src/link.rs. -/
inductive LinkState where
  | Attaching
  | Attached
  | Detaching
  | Detached
  | Error (s : String)
deriving DecidableEq

/-- Receiver of src/link.rs (the base Link is represented by its state; the
configuration and identifier fields do not affect the modelled
operations). -/
structure Receiver where
  state : LinkState
  credit : Nat
  message_queue : List Message
  delivery_count : Nat

/-- Receiver::receive of src/link.rs: requires Attached; pops the front of
the message queue; deliberately leaves `delivery_count` unchanged (see the
comment in the source: the count is incremented by `simulate_receive`). -/
def Receiver.receive (r : Receiver) :
    Except AmqpError (Option Message) × Receiver :=
  if r.state ≠ LinkState.Attached then
    (.error (.InvalidState "Receiver is not attached"), r)
  else
    match r.message_queue with
    | [] => (.ok none, r)
    | m :: rest => (.ok (some m), { r with message_queue := rest })

/-- Receiver::simulate_receive of src/link.rs: push a message onto the queue
and increment the delivery count. -/
def Receiver.simulate_receive (r : Receiver) (m : Message) : Receiver :=
  { r with
    message_queue := r.message_queue ++ [m],
    delivery_count := r.delivery_count + 1 }

/-- Receiver::add_credit of src/link.rs. -/
def Receiver.add_credit (r : Receiver) (n : Nat) : Receiver :=
  { r with credit := r.credit + n }

/-- Sender of src/link.rs; the pending-deliveries HashMap is an entry list
in one iteration order. -/
structure Sender where
  state : LinkState
  credit : Nat
  pending_deliveries : List (Nat × Message)
  next_delivery_id : Nat

/-- HashMap::insert on the pending-deliveries model. -/
def insert_delivery (m : List (Nat × Message)) (k : Nat) (v : Message) :
    List (Nat × Message) :=
  if m.any (fun e => decide (e.1 = k)) then
    m.map (fun e => if e.1 = k then (k, v) else e)
  else m ++ [(k, v)]

/-- Sender::send of src/link.rs: requires Attached and nonzero credit;
allocates the next delivery id, records the pending delivery, decrements
credit. -/
def Sender.send (s : Sender) (message : Message) :
    Except AmqpError Nat × Sender :=
  if s.state ≠ LinkState.Attached then
    (.error (.InvalidState "Sender is not attached"), s)
  else if s.credit = 0 then
    (.error (.Link "No credit available"), s)
  else
    let delivery_id := s.next_delivery_id
    (.ok delivery_id,
      { s with
        next_delivery_id := delivery_id + 1,
        pending_deliveries := insert_delivery s.pending_deliveries delivery_id message,
        credit := s.credit - 1 })

/-- Sender::add_credit of src/link.rs. -/
def Sender.add_credit (s : Sender) (n : Nat) : Sender :=
  { s with credit := s.credit + n }

/-- ConnectionState of src/connection.rs. -/
inductive ConnectionState where
  | Opening
  | Open
  | Closing
  | Closed
  | Error (s : String)
deriving DecidableEq

/-- SessionState of src/connection.rs. -/
inductive SessionState where
  | Opening
  | Open
  | Closing
  | Closed
  | Error (s : String)
deriving DecidableEq

/-- Session::close of src/connection.rs: requires Open, then transitions
through Closing to Closed. -/
def session_close (s : SessionState) : Except AmqpError Unit × SessionState :=
  if s ≠ SessionState.Open then
    (.error (.InvalidState "Session is not open"), s)
  else (.ok (), SessionState.Closed)

/-- Loop of Connection::close over `sessions.values_mut()`: close each
session in turn, stopping at the first failure (sessions before it stay
closed, the failing one and the rest keep their states). -/
def close_sessions : List SessionState → Except AmqpError Unit × List SessionState
  | [] => (.ok (), [])
  | s :: rest =>
    match session_close s with
    | (.error e, s1) => (.error e, s1 :: rest)
    | (.ok _, s1) =>
      match close_sessions rest with
      | (res, rest1) => (res, s1 :: rest1)

/-- Connection of src/connection.rs, restricted to the fields the open and
close operations observe: the state, the states of the owned sessions, and
whether a TCP stream is held. -/
structure Connection where
  state : ConnectionState
  sessions : List SessionState
  hasStream : Bool

/-- Connection::open of src/connection.rs.  The two I/O steps (TCP connect
with timeout, protocol-header write) are abstracted into the oracle
arguments carrying their already-mapped results; the state guard and the
state updates follow the source.  A connect failure leaves the state
Opening; after a successful connect the state is Open even if the header
write fails. -/
def connection_open (c : Connection) (tcp : Except AmqpError Unit)
    (hdr : Except AmqpError Unit) : Except AmqpError Unit × Connection :=
  if c.state ≠ ConnectionState.Closed then
    (.error (.InvalidState "Connection is not in closed state"), c)
  else
    match tcp with
    | .error e => (.error e, { c with state := ConnectionState.Opening })
    | .ok _ =>
      let c1 := { c with state := ConnectionState.Open, hasStream := true }
      match hdr with
      | .error e => (.error e, c1)
      | .ok _ => (.ok (), c1)

/-- Connection::close of src/connection.rs: requires Open; transitions to
Closing, closes every session (propagating the first failure), clears the
session map, sends the Close performative (a logging no-op in the source),
shuts the stream down via the oracle result, then transitions to Closed. -/
def connection_close (c : Connection) (shutdown : Except AmqpError Unit) :
    Except AmqpError Unit × Connection :=
  if c.state ≠ ConnectionState.Open then
    (.error (.InvalidState "Connection is not open"), c)
  else
    let c1 := { c with state := ConnectionState.Closing }
    match close_sessions c1.sessions with
    | (.error e, partial1) => (.error e, { c1 with sessions := partial1 })
    | (.ok _, _) =>
      let c2 := { c1 with sessions := [] }
      if c2.hasStream then
        match shutdown with
        | .error e => (.error e, { c2 with hasStream := false })
        | .ok _ => (.ok (), { c2 with hasStream := false, state := ConnectionState.Closed })
      else (.ok (), { c2 with state := ConnectionState.Closed })

/-- NetworkState of src/network.rs. -/
inductive NetworkState where
  | Disconnected
  | Connecting
  | Connected
  | Ready
  | Closing
  | Closed
  | Error (s : String)
deriving DecidableEq

/-- Observable side effects of NetworkConnection::disconnect. -/
inductive NetEvent where
  | AbortKeepAlive
  | SendClose
  | ShutdownTransport
deriving DecidableEq

/-- NetworkConnection of src/network.rs, restricted to the fields
`disconnect` observes: the state, whether a transport is held, and whether
the keep-alive task handle is present. -/
structure NetworkConnection where
  state : NetworkState
  hasTransport : Bool
  hasKeepAlive : Bool
deriving DecidableEq

/-- Transport shutdown tail of NetworkConnection::disconnect:
`self.transport.take()` followed by `shutdown` (oracle result), then the
transition to Closed. -/
def shutdown_step (c : NetworkConnection) (evs : List NetEvent)
    (shutdownIo : Except AmqpError Unit) :
    Except AmqpError Unit × NetworkConnection × List NetEvent :=
  if c.hasTransport then
    match shutdownIo with
    | .error e => (.error e, { c with hasTransport := false },
        evs ++ [NetEvent.ShutdownTransport])
    | .ok _ => (.ok (), { c with hasTransport := false, state := NetworkState.Closed },
        evs ++ [NetEvent.ShutdownTransport])
  else (.ok (), { c with state := NetworkState.Closed }, evs)

/-- NetworkConnection::disconnect of src/network.rs.  Returns the result,
the final connection, and the trace of performed actions.  The source sets
`self.state = Closing` first, aborts the keep-alive task, then tests
`self.state == Ready` (against the already-updated state) before sending the
Close performative, and finally shuts the transport down. -/
def NetworkConnection.disconnect (c : NetworkConnection)
    (closeIo : Except AmqpError Unit) (shutdownIo : Except AmqpError Unit) :
    Except AmqpError Unit × NetworkConnection × List NetEvent :=
  if c.state = NetworkState.Disconnected then (.ok (), c, [])
  else
    let c1 := { c with state := NetworkState.Closing }
    let c2 := if c1.hasKeepAlive then { c1 with hasKeepAlive := false } else c1
    let evs := if c1.hasKeepAlive then [NetEvent.AbortKeepAlive] else []
    if c2.hasTransport ∧ c2.state = NetworkState.Ready then
      match closeIo with
      | .error e => (.error e, c2, evs ++ [NetEvent.SendClose])
      | .ok _ => shutdown_step c2 (evs ++ [NetEvent.SendClose]) shutdownIo
    else shutdown_step c2 evs shutdownIo

/-! Helper lemmas. -/

@[simp]
theorem Outcome.ok_bind {α β : Type} (a : α) (f : α → Outcome β) :
    (Outcome.ok a >>= f) = f a := rfl

@[simp]
theorem Outcome.err_bind {α β : Type} (e : AmqpError) (f : α → Outcome β) :
    (Outcome.err e >>= f) = Outcome.err e := rfl

@[simp]
theorem Outcome.panicked_bind {α β : Type} (f : α → Outcome β) :
    (Outcome.panicked >>= f) = (Outcome.panicked : Outcome β) := rfl

@[simp]
theorem length_beBytes (k n : Nat) : (beBytes k n).length = k := by
  induction k generalizing n with
  | zero => rfl
  | succ k ih => simp [beBytes, ih]

theorem foldl_beBytes (k n acc : Nat) :
    (beBytes k n).foldl (fun a b => a * 256 + b) acc = acc * 256 ^ k + n % 256 ^ k := by
  induction k generalizing n acc with
  | zero => simp [beBytes, Nat.mod_one]
  | succ k ih =>
    have hpos : 0 < 256 ^ k := Nat.pos_pow_of_pos k (by omega)
    simp only [beBytes, List.foldl_cons]
    rw [ih]
    have h1 : n % 256 ^ (k + 1) = n % 256 ^ k + 256 ^ k * (n / 256 ^ k % 256) := by
      rw [pow_succ, Nat.mod_mul]
    rw [Nat.mod_eq_of_lt (Nat.mod_lt _ hpos), h1, pow_succ]
    ring

theorem fromBe_beBytes (k n : Nat) : fromBe (beBytes k n) = n % 256 ^ k := by
  simpa [fromBe] using foldl_beBytes k n 0

theorem take_append_of_length {α : Type} (l r : List α) (k : Nat)
    (h : l.length = k) : (l ++ r).take k = l := by
  subst h
  simp

theorem drop_append_of_length {α : Type} (l r : List α) (k : Nat)
    (h : l.length = k) : (l ++ r).drop k = r := by
  subst h
  simp

theorem read_be_beBytes (k n : Nat) (msg : String) (rest : List Nat) :
    read_be k msg (beBytes k n ++ rest) = .ok (n % 256 ^ k, rest) := by
  unfold read_be
  rw [if_neg (by simp), take_append_of_length _ _ _ (length_beBytes k n),
    drop_append_of_length _ _ _ (length_beBytes k n), fromBe_beBytes]

theorem get_be_beBytes (k n : Nat) (rest : List Nat) :
    get_be k (beBytes k n ++ rest) = .ok (n % 256 ^ k, rest) := by
  unfold get_be
  rw [if_neg (by simp), take_append_of_length _ _ _ (length_beBytes k n),
    drop_append_of_length _ _ _ (length_beBytes k n), fromBe_beBytes]

theorem read_exact_append (l r : List Nat) (msg : String) :
    read_exact l.length msg (l ++ r) = .ok (l, r) := by
  unfold read_exact
  rw [if_neg (by simp), take_append_of_length _ _ _ rfl,
    drop_append_of_length _ _ _ rfl]

theorem toU_lt (w : Nat) (x : Int) : toU w x < 2 ^ w := by
  have hpos : (0 : Int) < (2 ^ w : Nat) := by positivity
  have := Int.emod_lt_of_pos x (b := (2 ^ w : Nat)) hpos
  have h0 := Int.emod_nonneg x (ne_of_gt hpos)
  unfold toU
  omega

theorem fromTwos_toU (w : Nat) (hw : 0 < w) (x : Int)
    (h1 : -(2 ^ (w - 1) : Nat) ≤ x) (h2 : x < (2 ^ (w - 1) : Nat)) :
    fromTwos w (toU w x) = x := by
  have hA : (0 : Int) < ((2 ^ (w - 1) : Nat) : Int) := by positivity
  have hsplit : ((2 ^ w : Nat) : Int) = 2 * ((2 ^ (w - 1) : Nat) : Int) := by
    have : w = (w - 1) + 1 := by omega
    rw [this]
    push_cast [pow_succ]
    ring
  have hpos : (0 : Int) < ((2 ^ w : Nat) : Int) := by positivity
  have key : x % ((2 ^ w : Nat) : Int) = x ∨
      x % ((2 ^ w : Nat) : Int) = x + ((2 ^ w : Nat) : Int) := by
    rcases le_or_lt 0 x with hx | hx
    · left
      exact Int.emod_eq_of_lt hx (by omega)
    · right
      have heq : (x + ((2 ^ w : Nat) : Int)) % ((2 ^ w : Nat) : Int) =
          x % ((2 ^ w : Nat) : Int) := by
        have := Int.add_mul_emod_self_left (a := x) (b := ((2 ^ w : Nat) : Int)) (c := 1)
        simpa using this
      rw [← heq]
      exact Int.emod_eq_of_lt (by omega) (by omega)
  have h0 := Int.emod_nonneg x (ne_of_gt hpos)
  unfold fromTwos toU
  rcases key with hk | hk <;> rw [hk]
  · rw [if_pos (by omega)]
    omega
  · rw [if_neg (by omega)]
    omega

theorem encode_value_length_pos (v : AmqpValue) : 0 < (encode_value v).length := by
  cases v
  case boolean b => cases b <;> simp [encode_value]
  case binary bs =>
    simp only [encode_value, encode_binary]
    split <;> simp
  case string bs =>
    simp only [encode_value, encode_string]
    split <;> simp
  case symbol bs =>
    simp only [encode_value, encode_symbol]
    split <;> simp
  case list xs =>
    simp only [encode_value]
    split <;> (try split) <;> simp
  case map m =>
    simp only [encode_value]
    split <;> (try split) <;> simp
  case array xs =>
    simp only [encode_value]
    split <;> simp
  all_goals simp [encode_value]

theorem length_encode_seq_ge (xs : List AmqpValue) :
    xs.length ≤ (encode_seq xs).length := by
  induction xs with
  | nil => simp [encode_seq]
  | cons x xs ih =>
    have := encode_value_length_pos x
    simp only [encode_seq, List.length_append, List.length_cons]
    omega

/-- Induction principle for `AmqpValue` giving the member hypotheses for the
nested lists and entry lists. -/
theorem AmqpValue.inductionOn
    (P : AmqpValue → Prop)
    (hnull : P .null)
    (hboolean : ∀ b, P (.boolean b))
    (hubyte : ∀ n, P (.ubyte n))
    (hushort : ∀ n, P (.ushort n))
    (huint : ∀ n, P (.uint n))
    (hulong : ∀ n, P (.ulong n))
    (hbyte : ∀ x, P (.byte x))
    (hshort : ∀ x, P (.short x))
    (hint : ∀ x, P (.int x))
    (hlong : ∀ x, P (.long x))
    (hfloat : ∀ b, P (.float b))
    (hdouble : ∀ b, P (.double b))
    (hdec32 : ∀ n, P (.decimal32 n))
    (hdec64 : ∀ n, P (.decimal64 n))
    (hdec128 : ∀ n, P (.decimal128 n))
    (hchar : ∀ n, P (.char n))
    (hts : ∀ x, P (.timestamp x))
    (huuid : ∀ n, P (.uuid n))
    (hbinary : ∀ bs, P (.binary bs))
    (hstring : ∀ bs, P (.string bs))
    (hsymbol : ∀ bs, P (.symbol bs))
    (hlist : ∀ xs, (∀ x ∈ xs, P x) → P (.list xs))
    (hmap : ∀ m, (∀ e ∈ m, P e.2) → P (.map m))
    (harray : ∀ xs, (∀ x ∈ xs, P x) → P (.array xs)) :
    ∀ v, P v := fun v =>
  match v with
  | .null => hnull
  | .boolean b => hboolean b
  | .ubyte n => hubyte n
  | .ushort n => hushort n
  | .uint n => huint n
  | .ulong n => hulong n
  | .byte x => hbyte x
  | .short x => hshort x
  | .int x => hint x
  | .long x => hlong x
  | .float b => hfloat b
  | .double b => hdouble b
  | .decimal32 n => hdec32 n
  | .decimal64 n => hdec64 n
  | .decimal128 n => hdec128 n
  | .char n => hchar n
  | .timestamp x => hts x
  | .uuid n => huuid n
  | .binary bs => hbinary bs
  | .string bs => hstring bs
  | .symbol bs => hsymbol bs
  | .list xs => hlist xs (fun x _ =>
      AmqpValue.inductionOn P hnull hboolean hubyte hushort huint hulong hbyte
        hshort hint hlong hfloat hdouble hdec32 hdec64 hdec128 hchar hts huuid
        hbinary hstring hsymbol hlist hmap harray x)
  | .map m => hmap m (fun e _ =>
      AmqpValue.inductionOn P hnull hboolean hubyte hushort huint hulong hbyte
        hshort hint hlong hfloat hdouble hdec32 hdec64 hdec128 hchar hts huuid
        hbinary hstring hsymbol hlist hmap harray e.2)
  | .array xs => harray xs (fun x _ =>
      AmqpValue.inductionOn P hnull hboolean hubyte hushort huint hulong hbyte
        hshort hint hlong hfloat hdouble hdec32 hdec64 hdec128 hchar hts huuid
        hbinary hstring hsymbol hlist hmap harray x)
termination_by v => sizeOf v
decreasing_by
  · have := List.sizeOf_lt_of_mem (by assumption : x ∈ xs)
    simp only [AmqpValue.list.sizeOf_spec]
    omega
  · rename_i e he
    have h := List.sizeOf_lt_of_mem he
    have h2 : sizeOf e.2 < sizeOf e := by
      obtain ⟨a, b⟩ := e
      simp
    simp only [AmqpValue.map.sizeOf_spec]
    omega
  · have := List.sizeOf_lt_of_mem (by assumption : x ∈ xs)
    simp only [AmqpValue.array.sizeOf_spec]
    omega

theorem pow256_2 : (256 : Nat) ^ 2 = 2 ^ 16 := by norm_num

theorem pow256_4 : (256 : Nat) ^ 4 = 2 ^ 32 := by norm_num

theorem pow256_8 : (256 : Nat) ^ 8 = 2 ^ 64 := by norm_num

theorem pow256_16 : (256 : Nat) ^ 16 = 2 ^ 128 := by norm_num

theorem drop2_of (a b tail : List Nat) (k : Nat) (h : a.length + b.length = k) :
    (a ++ (b ++ tail)).drop k = tail := by
  subst h
  rw [← List.append_assoc]
  exact drop_append_of_length _ _ _ (by simp)

theorem decode_symbol8_body_spec (bs rest : List Nat) (h255 : bs.length ≤ 255)
    (hu : validUtf8 bs = true) :
    decode_symbol8_body (beBytes 1 bs.length ++ (bs ++ rest)) = .ok (bs, rest) := by
  have hmod : bs.length % 256 ^ 1 = bs.length := Nat.mod_eq_of_lt (by omega)
  simp only [decode_symbol8_body, read_be_beBytes, Outcome.ok_bind, hmod,
    read_exact_append, hu, if_true]

theorem decode_symbol32_body_spec (bs rest : List Nat) (hlen : bs.length < 2 ^ 32)
    (hu : validUtf8 bs = true) :
    decode_symbol32_body (beBytes 4 bs.length ++ (bs ++ rest)) = .ok (bs, rest) := by
  have hmod : bs.length % 256 ^ 4 = bs.length := by
    rw [pow256_4]
    exact Nat.mod_eq_of_lt hlen
  simp only [decode_symbol32_body, read_be_beBytes, Outcome.ok_bind, hmod,
    read_exact_append, hu, if_true]

theorem decode_symbol_encode_symbol (bs rest : List Nat)
    (hu : validUtf8 bs = true) (hlen : bs.length < 2 ^ 32) :
    decode_symbol (encode_symbol bs ++ rest) = .ok (bs, rest) := by
  unfold encode_symbol
  by_cases h255 : bs.length ≤ 255
  · rw [if_pos h255]
    simp only [List.cons_append, List.append_assoc]
    simp only [decode_symbol]
    norm_num
    exact decode_symbol8_body_spec bs rest h255 hu
  · rw [if_neg h255]
    simp only [List.cons_append, List.append_assoc]
    simp only [decode_symbol]
    norm_num
    exact decode_symbol32_body_spec bs rest hlen hu

theorem insert_entry_of_not_mem (acc : List (List Nat × AmqpValue))
    (k : List Nat) (v : AmqpValue) (h : ∀ e ∈ acc, e.1 ≠ k) :
    insert_entry acc k v = acc ++ [(k, v)] := by
  have hc : acc.any (fun e => decide (e.1 = k)) = false := by
    rw [List.any_eq_false]
    intro e he
    simp [h e he]
  unfold insert_entry
  rw [hc]
  simp

theorem decode_many_succ (fuel count : Nat) (buf : List Nat) :
    decode_many (fuel + 1) (count + 1) buf = (do
      let (v, r) ← decode_value fuel buf
      let (vs, r2) ← decode_many fuel count r
      Outcome.ok (v :: vs, r2)) := rfl

theorem decode_entries_succ (fuel count : Nat)
    (acc : List (List Nat × AmqpValue)) (buf : List Nat) :
    decode_entries (fuel + 1) (count + 1) acc buf = (do
      let (k, r) ← decode_symbol buf
      let (v, r2) ← decode_value fuel r
      decode_entries fuel count (insert_entry acc k v) r2) := rfl

theorem decode_many_spec (xs : List AmqpValue)
    (IH : ∀ x ∈ xs, ∀ fuel rest, wf_value x = true → decimal_free x = true →
      fuelV x ≤ fuel → decode_value fuel (encode_value x ++ rest) = .ok (x, rest)) :
    ∀ fuel rest, wf_seq xs = true → df_seq xs = true → fuelSeq xs ≤ fuel →
      decode_many fuel xs.length (encode_seq xs ++ rest) = .ok (xs, rest) := by
  induction xs with
  | nil =>
    intro fuel rest _ _ _
    cases fuel <;> rfl
  | cons x xs ih =>
    intro fuel rest hwf hdf hfuel
    simp only [fuelSeq] at hfuel
    obtain ⟨fuel, rfl⟩ : ∃ f, fuel = f + 1 := ⟨fuel - 1, by omega⟩
    simp only [wf_seq, Bool.and_eq_true] at hwf
    simp only [df_seq, Bool.and_eq_true] at hdf
    simp only [encode_seq, List.append_assoc, List.length_cons]
    rw [decode_many_succ]
    rw [IH x (by simp) _ _ hwf.1 hdf.1 (by omega)]
    simp only [Outcome.ok_bind]
    rw [ih (fun y hy => IH y (by simp [hy])) fuel rest hwf.2 hdf.2 (by omega)]
    rfl

theorem decode_entries_spec (m : List (List Nat × AmqpValue))
    (IH : ∀ e ∈ m, ∀ fuel rest, wf_value e.2 = true → decimal_free e.2 = true →
      fuelV e.2 ≤ fuel → decode_value fuel (encode_value e.2 ++ rest) = .ok (e.2, rest)) :
    ∀ fuel acc rest, wf_entries m = true → df_entries m = true →
      nodup_keys m = true → (∀ e ∈ m, ∀ a ∈ acc, a.1 ≠ e.1) →
      fuelEntries m ≤ fuel →
      decode_entries fuel m.length acc (encode_entries m ++ rest) = .ok (acc ++ m, rest) := by
  induction m with
  | nil =>
    intro fuel acc rest _ _ _ _ _
    rw [List.append_nil]
    cases fuel <;> rfl
  | cons e m ih =>
    obtain ⟨k, v⟩ := e
    intro fuel acc rest hwf hdf hnd hdisj hfuel
    simp only [fuelEntries] at hfuel
    obtain ⟨fuel, rfl⟩ : ∃ f, fuel = f + 1 := ⟨fuel - 1, by omega⟩
    simp only [wf_entries, Bool.and_eq_true, decide_eq_true_eq] at hwf
    simp only [df_entries, Bool.and_eq_true] at hdf
    simp only [nodup_keys, Bool.and_eq_true, Bool.not_eq_true',
      List.any_eq_false, decide_eq_true_eq] at hnd
    obtain ⟨⟨⟨hku, hkl⟩, hv⟩, hrest⟩ := hwf
    simp only [encode_entries, List.append_assoc, List.length_cons]
    rw [decode_entries_succ]
    rw [decode_symbol_encode_symbol k _ hku hkl]
    simp only [Outcome.ok_bind]
    rw [IH (k, v) (by simp) fuel _ hv hdf.1 (by show fuelV v ≤ fuel; omega)]
    simp only [Outcome.ok_bind]
    rw [insert_entry_of_not_mem acc k v
      (fun a ha => hdisj (k, v) (by simp) a ha)]
    have hdisj2 : ∀ e ∈ m, ∀ a ∈ acc ++ [(k, v)], a.1 ≠ e.1 := by
      intro e he a ha
      rcases List.mem_append.1 ha with h | h
      · exact hdisj e (by simp [he]) a h
      · have hk := hnd.1 e he
        simp only [List.mem_singleton] at h
        subst h
        simpa using fun hc => hk hc.symm
    rw [ih (fun e he => IH e (by simp [he])) fuel (acc ++ [(k, v)]) rest hrest hdf.2
      hnd.2 hdisj2 (by omega)]
    simp

/-! Decoding of each encoded shape, anchored to the decoder body by `rfl`. -/

theorem dv_null (fuel : Nat) (r : List Nat) :
    decode_value (fuel + 1) (0x40 :: r) = .ok (.null, r) := rfl

theorem dv_true (fuel : Nat) (r : List Nat) :
    decode_value (fuel + 1) (0x41 :: r) = .ok (.boolean true, r) := rfl

theorem dv_false (fuel : Nat) (r : List Nat) :
    decode_value (fuel + 1) (0x42 :: r) = .ok (.boolean false, r) := rfl

theorem dv_list0 (fuel : Nat) (r : List Nat) :
    decode_value (fuel + 1) (0x45 :: r) = .ok (.list [], r) := rfl

theorem dv_ubyte (fuel n : Nat) (rest : List Nat) :
    decode_value (fuel + 1) (0x50 :: (beBytes 1 n ++ rest)) =
      .ok (.ubyte (n % 256 ^ 1), rest) := by
  have unf : decode_value (fuel + 1) (0x50 :: (beBytes 1 n ++ rest)) = (do
      let (x, r) ← read_be 1 "Insufficient data for ubyte" (beBytes 1 n ++ rest)
      Outcome.ok (AmqpValue.ubyte x, r)) := rfl
  rw [unf, read_be_beBytes]
  rfl

theorem dv_ushort (fuel n : Nat) (rest : List Nat) :
    decode_value (fuel + 1) (0x60 :: (beBytes 2 n ++ rest)) =
      .ok (.ushort (n % 256 ^ 2), rest) := by
  have unf : decode_value (fuel + 1) (0x60 :: (beBytes 2 n ++ rest)) = (do
      let (x, r) ← read_be 2 "Insufficient data for ushort" (beBytes 2 n ++ rest)
      Outcome.ok (AmqpValue.ushort x, r)) := rfl
  rw [unf, read_be_beBytes]
  rfl

theorem dv_uint (fuel n : Nat) (rest : List Nat) :
    decode_value (fuel + 1) (0x70 :: (beBytes 4 n ++ rest)) =
      .ok (.uint (n % 256 ^ 4), rest) := by
  have unf : decode_value (fuel + 1) (0x70 :: (beBytes 4 n ++ rest)) = (do
      let (x, r) ← read_be 4 "Insufficient data for uint" (beBytes 4 n ++ rest)
      Outcome.ok (AmqpValue.uint x, r)) := rfl
  rw [unf, read_be_beBytes]
  rfl

theorem dv_ulong (fuel n : Nat) (rest : List Nat) :
    decode_value (fuel + 1) (0x80 :: (beBytes 8 n ++ rest)) =
      .ok (.ulong (n % 256 ^ 8), rest) := by
  have unf : decode_value (fuel + 1) (0x80 :: (beBytes 8 n ++ rest)) = (do
      let (x, r) ← read_be 8 "Insufficient data for ulong" (beBytes 8 n ++ rest)
      Outcome.ok (AmqpValue.ulong x, r)) := rfl
  rw [unf, read_be_beBytes]
  rfl

theorem dv_byte (fuel n : Nat) (rest : List Nat) :
    decode_value (fuel + 1) (0x51 :: (beBytes 1 n ++ rest)) =
      .ok (.byte (fromTwos 8 (n % 256 ^ 1)), rest) := by
  have unf : decode_value (fuel + 1) (0x51 :: (beBytes 1 n ++ rest)) = (do
      let (x, r) ← read_be 1 "Insufficient data for byte" (beBytes 1 n ++ rest)
      Outcome.ok (AmqpValue.byte (fromTwos 8 x), r)) := rfl
  rw [unf, read_be_beBytes]
  rfl

theorem dv_short (fuel n : Nat) (rest : List Nat) :
    decode_value (fuel + 1) (0x61 :: (beBytes 2 n ++ rest)) =
      .ok (.short (fromTwos 16 (n % 256 ^ 2)), rest) := by
  have unf : decode_value (fuel + 1) (0x61 :: (beBytes 2 n ++ rest)) = (do
      let (x, r) ← read_be 2 "Insufficient data for short" (beBytes 2 n ++ rest)
      Outcome.ok (AmqpValue.short (fromTwos 16 x), r)) := rfl
  rw [unf, read_be_beBytes]
  rfl

theorem dv_int (fuel n : Nat) (rest : List Nat) :
    decode_value (fuel + 1) (0x71 :: (beBytes 4 n ++ rest)) =
      .ok (.int (fromTwos 32 (n % 256 ^ 4)), rest) := by
  have unf : decode_value (fuel + 1) (0x71 :: (beBytes 4 n ++ rest)) = (do
      let (x, r) ← read_be 4 "Insufficient data for int" (beBytes 4 n ++ rest)
      Outcome.ok (AmqpValue.int (fromTwos 32 x), r)) := rfl
  rw [unf, read_be_beBytes]
  rfl

theorem dv_long (fuel n : Nat) (rest : List Nat) :
    decode_value (fuel + 1) (0x81 :: (beBytes 8 n ++ rest)) =
      .ok (.long (fromTwos 64 (n % 256 ^ 8)), rest) := by
  have unf : decode_value (fuel + 1) (0x81 :: (beBytes 8 n ++ rest)) = (do
      let (x, r) ← read_be 8 "Insufficient data for long" (beBytes 8 n ++ rest)
      Outcome.ok (AmqpValue.long (fromTwos 64 x), r)) := rfl
  rw [unf, read_be_beBytes]
  rfl

theorem dv_float (fuel n : Nat) (rest : List Nat) :
    decode_value (fuel + 1) (0x72 :: (beBytes 4 n ++ rest)) =
      .ok (.float (n % 256 ^ 4), rest) := by
  have unf : decode_value (fuel + 1) (0x72 :: (beBytes 4 n ++ rest)) = (do
      let (x, r) ← read_be 4 "Insufficient data for float" (beBytes 4 n ++ rest)
      Outcome.ok (AmqpValue.float x, r)) := rfl
  rw [unf, read_be_beBytes]
  rfl

theorem dv_double (fuel n : Nat) (rest : List Nat) :
    decode_value (fuel + 1) (0x82 :: (beBytes 8 n ++ rest)) =
      .ok (.double (n % 256 ^ 8), rest) := by
  have unf : decode_value (fuel + 1) (0x82 :: (beBytes 8 n ++ rest)) = (do
      let (x, r) ← read_be 8 "Insufficient data for double" (beBytes 8 n ++ rest)
      Outcome.ok (AmqpValue.double x, r)) := rfl
  rw [unf, read_be_beBytes]
  rfl

theorem dv_char (fuel n : Nat) (rest : List Nat) :
    decode_value (fuel + 1) (0x73 :: (beBytes 4 n ++ rest)) =
      (if isScalar (n % 256 ^ 4) then Outcome.ok (.char (n % 256 ^ 4), rest)
       else .err (.Decoding "Invalid UTF-8 code point")) := by
  have unf : decode_value (fuel + 1) (0x73 :: (beBytes 4 n ++ rest)) = (do
      let (x, r) ← read_be 4 "Insufficient data for char" (beBytes 4 n ++ rest)
      if isScalar x then Outcome.ok (AmqpValue.char x, r)
      else .err (.Decoding "Invalid UTF-8 code point")) := rfl
  rw [unf, read_be_beBytes]
  rfl

theorem dv_timestamp (fuel n : Nat) (rest : List Nat) :
    decode_value (fuel + 1) (0x83 :: (beBytes 8 n ++ rest)) =
      .ok (.timestamp (fromTwos 64 (n % 256 ^ 8)), rest) := by
  have unf : decode_value (fuel + 1) (0x83 :: (beBytes 8 n ++ rest)) = (do
      let (x, r) ← read_be 8 "Insufficient data for timestamp" (beBytes 8 n ++ rest)
      Outcome.ok (AmqpValue.timestamp (fromTwos 64 x), r)) := rfl
  rw [unf, read_be_beBytes]
  rfl

theorem dv_uuid (fuel n : Nat) (rest : List Nat) :
    decode_value (fuel + 1) (0x98 :: (beBytes 16 n ++ rest)) =
      .ok (.uuid (n % 256 ^ 16), rest) := by
  have unf : decode_value (fuel + 1) (0x98 :: (beBytes 16 n ++ rest)) = (do
      let (x, r) ← read_be 16 "Insufficient data for UUID" (beBytes 16 n ++ rest)
      Outcome.ok (AmqpValue.uuid x, r)) := rfl
  rw [unf, read_be_beBytes]
  rfl

theorem dv_binary8 (fuel : Nat) (bs rest : List Nat) (h255 : bs.length ≤ 255) :
    decode_value (fuel + 1) (0xa0 :: (beBytes 1 bs.length ++ (bs ++ rest))) =
      .ok (.binary bs, rest) := by
  have unf : decode_value (fuel + 1) (0xa0 :: (beBytes 1 bs.length ++ (bs ++ rest))) = (do
      let (len, r) ← read_be 1 "Insufficient data for binary8 length"
        (beBytes 1 bs.length ++ (bs ++ rest))
      let (d, r2) ← read_exact len "Insufficient data for binary8" r
      Outcome.ok (AmqpValue.binary d, r2)) := rfl
  have hm : bs.length % 256 ^ 1 = bs.length := Nat.mod_eq_of_lt (by norm_num; omega)
  rw [unf, read_be_beBytes, hm]
  simp only [Outcome.ok_bind]
  rw [read_exact_append]
  rfl

theorem dv_binary32 (fuel : Nat) (bs rest : List Nat) (hlen : bs.length < 2 ^ 32) :
    decode_value (fuel + 1) (0xb0 :: (beBytes 4 bs.length ++ (bs ++ rest))) =
      .ok (.binary bs, rest) := by
  have unf : decode_value (fuel + 1) (0xb0 :: (beBytes 4 bs.length ++ (bs ++ rest))) = (do
      let (len, r) ← read_be 4 "Insufficient data for binary32 length"
        (beBytes 4 bs.length ++ (bs ++ rest))
      let (d, r2) ← read_exact len "Insufficient data for binary32" r
      Outcome.ok (AmqpValue.binary d, r2)) := rfl
  have hm : bs.length % 256 ^ 4 = bs.length := by
    rw [pow256_4]
    exact Nat.mod_eq_of_lt hlen
  rw [unf, read_be_beBytes, hm]
  simp only [Outcome.ok_bind]
  rw [read_exact_append]
  rfl

theorem dv_string8 (fuel : Nat) (bs rest : List Nat) (h255 : bs.length ≤ 255)
    (hu : validUtf8 bs = true) :
    decode_value (fuel + 1) (0xa1 :: (beBytes 1 bs.length ++ (bs ++ rest))) =
      .ok (.string bs, rest) := by
  have unf : decode_value (fuel + 1) (0xa1 :: (beBytes 1 bs.length ++ (bs ++ rest))) = (do
      let (len, r) ← read_be 1 "Insufficient data for string8 length"
        (beBytes 1 bs.length ++ (bs ++ rest))
      let (d, r2) ← read_exact len "Insufficient data for string8" r
      if validUtf8 d then Outcome.ok (AmqpValue.string d, r2)
      else .err (.Decoding "Invalid UTF-8 string")) := rfl
  have hm : bs.length % 256 ^ 1 = bs.length := Nat.mod_eq_of_lt (by norm_num; omega)
  rw [unf, read_be_beBytes, hm]
  simp only [Outcome.ok_bind]
  rw [read_exact_append]
  simp [hu]

theorem dv_string32 (fuel : Nat) (bs rest : List Nat) (hlen : bs.length < 2 ^ 32)
    (hu : validUtf8 bs = true) :
    decode_value (fuel + 1) (0xb1 :: (beBytes 4 bs.length ++ (bs ++ rest))) =
      .ok (.string bs, rest) := by
  have unf : decode_value (fuel + 1) (0xb1 :: (beBytes 4 bs.length ++ (bs ++ rest))) = (do
      let (len, r) ← read_be 4 "Insufficient data for string32 length"
        (beBytes 4 bs.length ++ (bs ++ rest))
      let (d, r2) ← read_exact len "Insufficient data for string32" r
      if validUtf8 d then Outcome.ok (AmqpValue.string d, r2)
      else .err (.Decoding "Invalid UTF-8 string")) := rfl
  have hm : bs.length % 256 ^ 4 = bs.length := by
    rw [pow256_4]
    exact Nat.mod_eq_of_lt hlen
  rw [unf, read_be_beBytes, hm]
  simp only [Outcome.ok_bind]
  rw [read_exact_append]
  simp [hu]

theorem dv_symbol8 (fuel : Nat) (bs rest : List Nat) (h255 : bs.length ≤ 255)
    (hu : validUtf8 bs = true) :
    decode_value (fuel + 1) (0xa3 :: (beBytes 1 bs.length ++ (bs ++ rest))) =
      .ok (.symbol bs, rest) := by
  have unf : decode_value (fuel + 1) (0xa3 :: (beBytes 1 bs.length ++ (bs ++ rest))) = (do
      let (d, r) ← decode_symbol8_body (beBytes 1 bs.length ++ (bs ++ rest))
      Outcome.ok (AmqpValue.symbol d, r)) := rfl
  rw [unf, decode_symbol8_body_spec bs rest h255 hu]
  rfl

theorem dv_symbol32 (fuel : Nat) (bs rest : List Nat) (hlen : bs.length < 2 ^ 32)
    (hu : validUtf8 bs = true) :
    decode_value (fuel + 1) (0xb3 :: (beBytes 4 bs.length ++ (bs ++ rest))) =
      .ok (.symbol bs, rest) := by
  have unf : decode_value (fuel + 1) (0xb3 :: (beBytes 4 bs.length ++ (bs ++ rest))) = (do
      let (d, r) ← decode_symbol32_body (beBytes 4 bs.length ++ (bs ++ rest))
      Outcome.ok (AmqpValue.symbol d, r)) := rfl
  rw [unf, decode_symbol32_body_spec bs rest hlen hu]
  rfl

theorem dv_list8 (fuel count : Nat) (tail : List Nat) :
    decode_value (fuel + 1) (0xc0 :: (beBytes 1 count ++ tail)) = (do
      let (items, r) ← decode_many fuel (count % 256 ^ 1) tail
      Outcome.ok (AmqpValue.list items, r)) := by
  have unf : decode_value (fuel + 1) (0xc0 :: (beBytes 1 count ++ tail)) = (do
      let (c, r) ← get_be 1 (beBytes 1 count ++ tail)
      let (items, r2) ← decode_many fuel c r
      Outcome.ok (AmqpValue.list items, r2)) := rfl
  rw [unf, get_be_beBytes]
  rfl

theorem dv_list32 (fuel count : Nat) (tail : List Nat) :
    decode_value (fuel + 1) (0xd0 :: (beBytes 4 count ++ tail)) = (do
      let (items, r) ← decode_many fuel (count % 256 ^ 4) tail
      Outcome.ok (AmqpValue.list items, r)) := by
  have unf : decode_value (fuel + 1) (0xd0 :: (beBytes 4 count ++ tail)) = (do
      let (c, r) ← get_be 4 (beBytes 4 count ++ tail)
      let (items, r2) ← decode_many fuel c r
      Outcome.ok (AmqpValue.list items, r2)) := rfl
  rw [unf, get_be_beBytes]
  rfl

theorem dv_map8 (fuel count : Nat) (tail : List Nat) :
    decode_value (fuel + 1) (0xc1 :: (beBytes 1 count ++ tail)) = (do
      let (entries, r) ← decode_entries fuel (count % 256 ^ 1) [] tail
      Outcome.ok (AmqpValue.map entries, r)) := by
  have unf : decode_value (fuel + 1) (0xc1 :: (beBytes 1 count ++ tail)) = (do
      let (c, r) ← get_be 1 (beBytes 1 count ++ tail)
      let (entries, r2) ← decode_entries fuel c [] r
      Outcome.ok (AmqpValue.map entries, r2)) := rfl
  rw [unf, get_be_beBytes]
  rfl

theorem dv_map32 (fuel count : Nat) (tail : List Nat) :
    decode_value (fuel + 1) (0xd1 :: (beBytes 4 count ++ tail)) = (do
      let (entries, r) ← decode_entries fuel (count % 256 ^ 4) [] tail
      Outcome.ok (AmqpValue.map entries, r)) := by
  have unf : decode_value (fuel + 1) (0xd1 :: (beBytes 4 count ++ tail)) = (do
      let (c, r) ← get_be 4 (beBytes 4 count ++ tail)
      let (entries, r2) ← decode_entries fuel c [] r
      Outcome.ok (AmqpValue.map entries, r2)) := rfl
  rw [unf, get_be_beBytes]
  rfl

theorem dv_array8 (fuel size count : Nat) (tail : List Nat)
    (h : ¬ tail.length < size % 256 ^ 1) :
    decode_value (fuel + 1) (0xe0 :: (beBytes 1 size ++ (beBytes 1 count ++ tail))) = (do
      let (items, r) ← decode_many fuel (count % 256 ^ 1) tail
      Outcome.ok (AmqpValue.array items, r)) := by
  have unf : decode_value (fuel + 1) (0xe0 :: (beBytes 1 size ++ (beBytes 1 count ++ tail))) =
      (if (beBytes 1 size ++ (beBytes 1 count ++ tail)).length < 2 then
        Outcome.err (.Decoding "Insufficient data for array8 header")
      else if ((beBytes 1 size ++ (beBytes 1 count ++ tail)).drop 2).length <
          fromBe ((beBytes 1 size ++ (beBytes 1 count ++ tail)).take 1) then
        Outcome.err (.Decoding "Insufficient data for array8")
      else (do
        let (items, r3) ← decode_many fuel
          (fromBe (((beBytes 1 size ++ (beBytes 1 count ++ tail)).drop 1).take 1))
          ((beBytes 1 size ++ (beBytes 1 count ++ tail)).drop 2)
        Outcome.ok (AmqpValue.array items, r3))) := rfl
  rw [unf, take_append_of_length _ _ 1 (length_beBytes 1 size),
    drop_append_of_length _ _ 1 (length_beBytes 1 size),
    take_append_of_length _ _ 1 (length_beBytes 1 count),
    drop2_of _ _ _ 2 (by simp), fromBe_beBytes, fromBe_beBytes,
    if_neg (by simp; omega), if_neg h]

theorem dv_array32 (fuel size count : Nat) (tail : List Nat)
    (h : ¬ tail.length < size % 256 ^ 4) :
    decode_value (fuel + 1) (0xf0 :: (beBytes 4 size ++ (beBytes 4 count ++ tail))) = (do
      let (items, r) ← decode_many fuel (count % 256 ^ 4) tail
      Outcome.ok (AmqpValue.array items, r)) := by
  have unf : decode_value (fuel + 1) (0xf0 :: (beBytes 4 size ++ (beBytes 4 count ++ tail))) =
      (if (beBytes 4 size ++ (beBytes 4 count ++ tail)).length < 8 then
        Outcome.err (.Decoding "Insufficient data for array32 header")
      else if ((beBytes 4 size ++ (beBytes 4 count ++ tail)).drop 8).length <
          fromBe ((beBytes 4 size ++ (beBytes 4 count ++ tail)).take 4) then
        Outcome.err (.Decoding "Insufficient data for array32")
      else (do
        let (items, r3) ← decode_many fuel
          (fromBe (((beBytes 4 size ++ (beBytes 4 count ++ tail)).drop 4).take 4))
          ((beBytes 4 size ++ (beBytes 4 count ++ tail)).drop 8)
        Outcome.ok (AmqpValue.array items, r3))) := rfl
  rw [unf, take_append_of_length _ _ 4 (length_beBytes 4 size),
    drop_append_of_length _ _ 4 (length_beBytes 4 size),
    take_append_of_length _ _ 4 (length_beBytes 4 count),
    drop2_of _ _ _ 8 (by simp), fromBe_beBytes, fromBe_beBytes,
    if_neg (by simp; omega), if_neg h]

theorem one_le_fuelV (v : AmqpValue) : 1 ≤ fuelV v := by
  cases v <;> simp [fuelV]

theorem fuel_succ_of (v : AmqpValue) (fuel : Nat) (h : fuelV v ≤ fuel) :
    ∃ f, fuel = f + 1 :=
  ⟨fuel - 1, by have := one_le_fuelV v; omega⟩

/-- Round trip of a single value: decoding the encoding of a well-formed,
decimal-free value consumes exactly the encoding and returns the value. -/
theorem round_trip_value (v : AmqpValue) :
    ∀ fuel rest, wf_value v = true → decimal_free v = true → fuelV v ≤ fuel →
      decode_value fuel (encode_value v ++ rest) = .ok (v, rest) := by
  induction v using AmqpValue.inductionOn with
  | hnull =>
    intro fuel rest _ _ hfuel
    obtain ⟨f, rfl⟩ := fuel_succ_of _ fuel hfuel
    exact dv_null f rest
  | hboolean b =>
    intro fuel rest _ _ hfuel
    obtain ⟨f, rfl⟩ := fuel_succ_of _ fuel hfuel
    cases b
    · exact dv_false f rest
    · exact dv_true f rest
  | hubyte n =>
    intro fuel rest hwf _ hfuel
    obtain ⟨f, rfl⟩ := fuel_succ_of _ fuel hfuel
    simp only [wf_value, decide_eq_true_eq] at hwf
    simp only [encode_value, List.cons_append]
    rw [dv_ubyte, Nat.mod_eq_of_lt (by norm_num at hwf ⊢; omega)]
  | hushort n =>
    intro fuel rest hwf _ hfuel
    obtain ⟨f, rfl⟩ := fuel_succ_of _ fuel hfuel
    simp only [wf_value, decide_eq_true_eq] at hwf
    simp only [encode_value, List.cons_append]
    rw [dv_ushort, Nat.mod_eq_of_lt (by norm_num at hwf ⊢; omega)]
  | huint n =>
    intro fuel rest hwf _ hfuel
    obtain ⟨f, rfl⟩ := fuel_succ_of _ fuel hfuel
    simp only [wf_value, decide_eq_true_eq] at hwf
    simp only [encode_value, List.cons_append]
    rw [dv_uint, Nat.mod_eq_of_lt (by norm_num at hwf ⊢; omega)]
  | hulong n =>
    intro fuel rest hwf _ hfuel
    obtain ⟨f, rfl⟩ := fuel_succ_of _ fuel hfuel
    simp only [wf_value, decide_eq_true_eq] at hwf
    simp only [encode_value, List.cons_append]
    rw [dv_ulong, Nat.mod_eq_of_lt (by norm_num at hwf ⊢; omega)]
  | hbyte x =>
    intro fuel rest hwf _ hfuel
    obtain ⟨f, rfl⟩ := fuel_succ_of _ fuel hfuel
    simp only [wf_value, Bool.and_eq_true, decide_eq_true_eq] at hwf
    simp only [encode_value, List.cons_append]
    rw [dv_byte, Nat.mod_eq_of_lt (by have := toU_lt 8 x; norm_num at this ⊢; omega),
      fromTwos_toU 8 (by norm_num) x (by norm_num at hwf ⊢; omega)
        (by norm_num at hwf ⊢; omega)]
  | hshort x =>
    intro fuel rest hwf _ hfuel
    obtain ⟨f, rfl⟩ := fuel_succ_of _ fuel hfuel
    simp only [wf_value, Bool.and_eq_true, decide_eq_true_eq] at hwf
    simp only [encode_value, List.cons_append]
    rw [dv_short, Nat.mod_eq_of_lt (by have := toU_lt 16 x; norm_num at this ⊢; omega),
      fromTwos_toU 16 (by norm_num) x (by norm_num at hwf ⊢; omega)
        (by norm_num at hwf ⊢; omega)]
  | hint x =>
    intro fuel rest hwf _ hfuel
    obtain ⟨f, rfl⟩ := fuel_succ_of _ fuel hfuel
    simp only [wf_value, Bool.and_eq_true, decide_eq_true_eq] at hwf
    simp only [encode_value, List.cons_append]
    rw [dv_int, Nat.mod_eq_of_lt (by have := toU_lt 32 x; norm_num at this ⊢; omega),
      fromTwos_toU 32 (by norm_num) x (by norm_num at hwf ⊢; omega)
        (by norm_num at hwf ⊢; omega)]
  | hlong x =>
    intro fuel rest hwf _ hfuel
    obtain ⟨f, rfl⟩ := fuel_succ_of _ fuel hfuel
    simp only [wf_value, Bool.and_eq_true, decide_eq_true_eq] at hwf
    simp only [encode_value, List.cons_append]
    rw [dv_long, Nat.mod_eq_of_lt (by have := toU_lt 64 x; norm_num at this ⊢; omega),
      fromTwos_toU 64 (by norm_num) x (by norm_num at hwf ⊢; omega)
        (by norm_num at hwf ⊢; omega)]
  | hfloat n =>
    intro fuel rest hwf _ hfuel
    obtain ⟨f, rfl⟩ := fuel_succ_of _ fuel hfuel
    simp only [wf_value, decide_eq_true_eq] at hwf
    simp only [encode_value, List.cons_append]
    rw [dv_float, Nat.mod_eq_of_lt (by norm_num at hwf ⊢; omega)]
  | hdouble n =>
    intro fuel rest hwf _ hfuel
    obtain ⟨f, rfl⟩ := fuel_succ_of _ fuel hfuel
    simp only [wf_value, decide_eq_true_eq] at hwf
    simp only [encode_value, List.cons_append]
    rw [dv_double, Nat.mod_eq_of_lt (by norm_num at hwf ⊢; omega)]
  | hdec32 n =>
    intro fuel rest _ hdf _
    simp [decimal_free] at hdf
  | hdec64 n =>
    intro fuel rest _ hdf _
    simp [decimal_free] at hdf
  | hdec128 n =>
    intro fuel rest _ hdf _
    simp [decimal_free] at hdf
  | hchar n =>
    intro fuel rest hwf _ hfuel
    obtain ⟨f, rfl⟩ := fuel_succ_of _ fuel hfuel
    simp only [wf_value] at hwf
    have hn : n < 2 ^ 32 := by
      simp only [isScalar, Bool.or_eq_true, Bool.and_eq_true, decide_eq_true_eq] at hwf
      norm_num
      omega
    have hm : n % 256 ^ 4 = n := by
      rw [pow256_4]
      exact Nat.mod_eq_of_lt hn
    simp only [encode_value, List.cons_append]
    rw [dv_char, hm, if_pos hwf]
  | hts x =>
    intro fuel rest hwf _ hfuel
    obtain ⟨f, rfl⟩ := fuel_succ_of _ fuel hfuel
    simp only [wf_value, Bool.and_eq_true, decide_eq_true_eq] at hwf
    simp only [encode_value, List.cons_append]
    rw [dv_timestamp, Nat.mod_eq_of_lt (by have := toU_lt 64 x; norm_num at this ⊢; omega),
      fromTwos_toU 64 (by norm_num) x (by norm_num at hwf ⊢; omega)
        (by norm_num at hwf ⊢; omega)]
  | huuid n =>
    intro fuel rest hwf _ hfuel
    obtain ⟨f, rfl⟩ := fuel_succ_of _ fuel hfuel
    simp only [wf_value, decide_eq_true_eq] at hwf
    simp only [encode_value, List.cons_append]
    rw [dv_uuid, Nat.mod_eq_of_lt (by norm_num at hwf ⊢; omega)]
  | hbinary bs =>
    intro fuel rest hwf _ hfuel
    obtain ⟨f, rfl⟩ := fuel_succ_of _ fuel hfuel
    simp only [wf_value, Bool.and_eq_true, decide_eq_true_eq] at hwf
    by_cases h255 : bs.length ≤ 255
    · rw [show encode_value (.binary bs) = 0xa0 :: beBytes 1 bs.length ++ bs by
        simp [encode_value, encode_binary, h255]]
      simp only [List.cons_append, List.append_assoc]
      exact dv_binary8 f bs rest h255
    · rw [show encode_value (.binary bs) = 0xb0 :: beBytes 4 bs.length ++ bs by
        simp [encode_value, encode_binary, h255]]
      simp only [List.cons_append, List.append_assoc]
      exact dv_binary32 f bs rest hwf.2
  | hstring bs =>
    intro fuel rest hwf _ hfuel
    obtain ⟨f, rfl⟩ := fuel_succ_of _ fuel hfuel
    simp only [wf_value, Bool.and_eq_true, decide_eq_true_eq] at hwf
    by_cases h255 : bs.length ≤ 255
    · rw [show encode_value (.string bs) = 0xa1 :: beBytes 1 bs.length ++ bs by
        simp [encode_value, encode_string, h255]]
      simp only [List.cons_append, List.append_assoc]
      exact dv_string8 f bs rest h255 hwf.1
    · rw [show encode_value (.string bs) = 0xb1 :: beBytes 4 bs.length ++ bs by
        simp [encode_value, encode_string, h255]]
      simp only [List.cons_append, List.append_assoc]
      exact dv_string32 f bs rest hwf.2 hwf.1
  | hsymbol bs =>
    intro fuel rest hwf _ hfuel
    obtain ⟨f, rfl⟩ := fuel_succ_of _ fuel hfuel
    simp only [wf_value, Bool.and_eq_true, decide_eq_true_eq] at hwf
    by_cases h255 : bs.length ≤ 255
    · rw [show encode_value (.symbol bs) = 0xa3 :: beBytes 1 bs.length ++ bs by
        simp [encode_value, encode_symbol, h255]]
      simp only [List.cons_append, List.append_assoc]
      exact dv_symbol8 f bs rest h255 hwf.1
    · rw [show encode_value (.symbol bs) = 0xb3 :: beBytes 4 bs.length ++ bs by
        simp [encode_value, encode_symbol, h255]]
      simp only [List.cons_append, List.append_assoc]
      exact dv_symbol32 f bs rest hwf.2 hwf.1
  | hlist xs IH =>
    intro fuel rest hwf hdf hfuel
    obtain ⟨f, rfl⟩ := fuel_succ_of _ fuel hfuel
    simp only [wf_value, Bool.and_eq_true, decide_eq_true_eq] at hwf
    simp only [decimal_free] at hdf
    simp only [fuelV] at hfuel
    cases xs with
    | nil => exact dv_list0 f rest
    | cons y ys =>
      by_cases h255 : (y :: ys).length ≤ 255
      · rw [show encode_value (.list (y :: ys)) =
            0xc0 :: beBytes 1 (y :: ys).length ++ encode_seq (y :: ys) by
          simp only [encode_value, List.isEmpty_cons, Bool.false_eq_true, if_false]
          rw [if_pos h255]]
        simp only [List.cons_append, List.append_assoc]
        rw [dv_list8, Nat.mod_eq_of_lt (by norm_num at h255 ⊢; omega),
          decode_many_spec (y :: ys) IH f rest hwf.2 hdf (by omega)]
        rfl
      · rw [show encode_value (.list (y :: ys)) =
            0xd0 :: beBytes 4 (y :: ys).length ++ encode_seq (y :: ys) by
          simp only [encode_value, List.isEmpty_cons, Bool.false_eq_true, if_false]
          rw [if_neg h255]]
        simp only [List.cons_append, List.append_assoc]
        have hm : (y :: ys).length % 256 ^ 4 = (y :: ys).length := by
          rw [pow256_4]
          exact Nat.mod_eq_of_lt hwf.1
        rw [dv_list32, hm, decode_many_spec (y :: ys) IH f rest hwf.2 hdf (by omega)]
        rfl
  | hmap m IH =>
    intro fuel rest hwf hdf hfuel
    obtain ⟨f, rfl⟩ := fuel_succ_of _ fuel hfuel
    simp only [wf_value, Bool.and_eq_true, decide_eq_true_eq] at hwf
    obtain ⟨⟨hlen, hnd⟩, hent⟩ := hwf
    simp only [decimal_free] at hdf
    simp only [fuelV] at hfuel
    cases m with
    | nil =>
      rw [show encode_value (.map []) ++ rest = 0xc1 :: (beBytes 1 0 ++ rest) from rfl]
      rw [dv_map8]
      rw [show (0 : Nat) % 256 ^ 1 = 0 by norm_num]
      rw [show decode_entries f 0 ([] : List (List Nat × AmqpValue)) rest =
        .ok ([], rest) by cases f <;> rfl]
      rfl
    | cons e m2 =>
      by_cases h127 : (e :: m2).length ≤ 127
      · rw [show encode_value (.map (e :: m2)) =
            0xc1 :: beBytes 1 (e :: m2).length ++ encode_entries (e :: m2) by
          simp only [encode_value, List.isEmpty_cons, Bool.false_eq_true, if_false]
          rw [if_pos h127]]
        simp only [List.cons_append, List.append_assoc]
        rw [dv_map8, Nat.mod_eq_of_lt (by norm_num at h127 ⊢; omega),
          decode_entries_spec (e :: m2) IH f [] rest hent hdf hnd
            (fun e2 _ a ha => absurd ha (List.not_mem_nil a)) (by omega)]
        simp
      · rw [show encode_value (.map (e :: m2)) =
            0xd1 :: beBytes 4 (e :: m2).length ++ encode_entries (e :: m2) by
          simp only [encode_value, List.isEmpty_cons, Bool.false_eq_true, if_false]
          rw [if_neg h127]]
        simp only [List.cons_append, List.append_assoc]
        have hm : (e :: m2).length % 256 ^ 4 = (e :: m2).length := by
          rw [pow256_4]
          exact Nat.mod_eq_of_lt hlen
        rw [dv_map32, hm,
          decode_entries_spec (e :: m2) IH f [] rest hent hdf hnd
            (fun e2 _ a ha => absurd ha (List.not_mem_nil a)) (by omega)]
        simp
  | harray xs IH =>
    intro fuel rest hwf hdf hfuel
    obtain ⟨f, rfl⟩ := fuel_succ_of _ fuel hfuel
    simp only [wf_value, Bool.and_eq_true, decide_eq_true_eq] at hwf
    simp only [decimal_free] at hdf
    simp only [fuelV] at hfuel
    have hcnt := length_encode_seq_ge xs
    by_cases h255 : (encode_seq xs).length ≤ 255
    · rw [show encode_value (.array xs) =
          0xe0 :: (beBytes 1 (encode_seq xs).length ++ beBytes 1 xs.length) ++
            encode_seq xs by simp [encode_value, h255]]
      simp only [List.cons_append, List.append_assoc]
      have hszm : (encode_seq xs).length % 256 ^ 1 = (encode_seq xs).length :=
        Nat.mod_eq_of_lt (by norm_num at h255 ⊢; omega)
      rw [dv_array8 f _ _ _ (by rw [hszm]; simp),
        Nat.mod_eq_of_lt (by norm_num at h255 ⊢; omega),
        decode_many_spec xs IH f rest hwf.2 hdf (by omega)]
      rfl
    · rw [show encode_value (.array xs) =
          0xf0 :: (beBytes 4 (encode_seq xs).length ++ beBytes 4 xs.length) ++
            encode_seq xs by simp [encode_value, h255]]
      simp only [List.cons_append, List.append_assoc]
      have hszm : (encode_seq xs).length % 256 ^ 4 = (encode_seq xs).length := by
        rw [pow256_4]
        exact Nat.mod_eq_of_lt hwf.1
      have hcm : xs.length % 256 ^ 4 = xs.length := by
        rw [pow256_4]
        exact Nat.mod_eq_of_lt (by omega)
      rw [dv_array32 f _ _ _ (by rw [hszm]; simp),
        hcm, decode_many_spec xs IH f rest hwf.2 hdf (by omega)]
      rfl

theorem beBytes_one (n : Nat) : beBytes 1 n = [n % 256] := by
  simp [beBytes]

theorem insert_delivery_of_not_mem (m : List (Nat × Message)) (k : Nat)
    (v : Message) (h : ∀ e ∈ m, e.1 ≠ k) :
    insert_delivery m k v = m ++ [(k, v)] := by
  have hc : m.any (fun e => decide (e.1 = k)) = false := by
    rw [List.any_eq_false]
    intro e he
    simp [h e he]
  unfold insert_delivery
  rw [hc]
  simp

theorem isEmpty_append_left (a b : List Nat) (h : a ≠ []) :
    (a ++ b).isEmpty = false := by
  cases a with
  | nil => exact absurd rfl h
  | cons x xs => rfl

theorem isEmpty_false_of_ne_nil (l : List Nat) (h : l ≠ []) :
    l.isEmpty = false := by
  cases l with
  | nil => exact absurd rfl h
  | cons x xs => rfl

theorem encode_value_ne_nil (v : AmqpValue) : encode_value v ≠ [] := by
  intro hc
  have hl := encode_value_length_pos v
  rw [hc] at hl
  simp at hl

theorem map_get_append (a b : List (List Nat × AmqpValue)) (k : List Nat) :
    map_get (a ++ b) k =
      match map_get a k with
      | some v => some v
      | none => map_get b k := by
  induction a with
  | nil => rfl
  | cons e rest ih =>
    by_cases hk : e.1 = k
    · simp [map_get, hk]
    · simp [map_get, hk, ih]

theorem map_get_optHead (kk k : List Nat) (o : Option AmqpValue) :
    map_get (optHead (kk, o)) k = if kk = k then o else none := by
  cases o with
  | none => simp [optHead, map_get]
  | some v => simp [optHead, map_get]

theorem header_from_map_header_map (h : Header) :
    header_from_map (header_map h) = h := by
  obtain ⟨d, pr, t, fa, dc⟩ := h
  cases d <;> cases pr <;> cases t <;> cases fa <;> cases dc <;> rfl

theorem props_from_map_props_map (p : Properties) :
    props_from_map (props_map p) = p := by
  obtain ⟨m, u, t, s, r, c, ct, ce, ae, cr, g, gs, rg⟩ := p
  unfold props_from_map
  congr 1
  · cases m <;> simp [props_map, opt_entries, map_get_append, map_get_optHead,
      key_message_id, key_user_id, key_to, key_subject, key_reply_to,
      key_correlation_id, key_content_type, key_content_encoding,
      key_absolute_expiry_time, key_creation_time, key_group_id,
      key_group_sequence, key_reply_to_group_id]
  · cases u <;> simp [props_map, opt_entries, map_get_append, map_get_optHead,
      key_message_id, key_user_id, key_to, key_subject, key_reply_to,
      key_correlation_id, key_content_type, key_content_encoding,
      key_absolute_expiry_time, key_creation_time, key_group_id,
      key_group_sequence, key_reply_to_group_id]
  · cases t <;> simp [props_map, opt_entries, map_get_append, map_get_optHead,
      key_message_id, key_user_id, key_to, key_subject, key_reply_to,
      key_correlation_id, key_content_type, key_content_encoding,
      key_absolute_expiry_time, key_creation_time, key_group_id,
      key_group_sequence, key_reply_to_group_id]
  · cases s <;> simp [props_map, opt_entries, map_get_append, map_get_optHead,
      key_message_id, key_user_id, key_to, key_subject, key_reply_to,
      key_correlation_id, key_content_type, key_content_encoding,
      key_absolute_expiry_time, key_creation_time, key_group_id,
      key_group_sequence, key_reply_to_group_id]
  · cases r <;> simp [props_map, opt_entries, map_get_append, map_get_optHead,
      key_message_id, key_user_id, key_to, key_subject, key_reply_to,
      key_correlation_id, key_content_type, key_content_encoding,
      key_absolute_expiry_time, key_creation_time, key_group_id,
      key_group_sequence, key_reply_to_group_id]
  · cases c <;> simp [props_map, opt_entries, map_get_append, map_get_optHead,
      key_message_id, key_user_id, key_to, key_subject, key_reply_to,
      key_correlation_id, key_content_type, key_content_encoding,
      key_absolute_expiry_time, key_creation_time, key_group_id,
      key_group_sequence, key_reply_to_group_id]
  · cases ct <;> simp [props_map, opt_entries, map_get_append, map_get_optHead,
      key_message_id, key_user_id, key_to, key_subject, key_reply_to,
      key_correlation_id, key_content_type, key_content_encoding,
      key_absolute_expiry_time, key_creation_time, key_group_id,
      key_group_sequence, key_reply_to_group_id]
  · cases ce <;> simp [props_map, opt_entries, map_get_append, map_get_optHead,
      key_message_id, key_user_id, key_to, key_subject, key_reply_to,
      key_correlation_id, key_content_type, key_content_encoding,
      key_absolute_expiry_time, key_creation_time, key_group_id,
      key_group_sequence, key_reply_to_group_id]
  · cases ae <;> simp [props_map, opt_entries, map_get_append, map_get_optHead,
      key_message_id, key_user_id, key_to, key_subject, key_reply_to,
      key_correlation_id, key_content_type, key_content_encoding,
      key_absolute_expiry_time, key_creation_time, key_group_id,
      key_group_sequence, key_reply_to_group_id]
  · cases cr <;> simp [props_map, opt_entries, map_get_append, map_get_optHead,
      key_message_id, key_user_id, key_to, key_subject, key_reply_to,
      key_correlation_id, key_content_type, key_content_encoding,
      key_absolute_expiry_time, key_creation_time, key_group_id,
      key_group_sequence, key_reply_to_group_id]
  · cases g <;> simp [props_map, opt_entries, map_get_append, map_get_optHead,
      key_message_id, key_user_id, key_to, key_subject, key_reply_to,
      key_correlation_id, key_content_type, key_content_encoding,
      key_absolute_expiry_time, key_creation_time, key_group_id,
      key_group_sequence, key_reply_to_group_id]
  · cases gs <;> simp [props_map, opt_entries, map_get_append, map_get_optHead,
      key_message_id, key_user_id, key_to, key_subject, key_reply_to,
      key_correlation_id, key_content_type, key_content_encoding,
      key_absolute_expiry_time, key_creation_time, key_group_id,
      key_group_sequence, key_reply_to_group_id]
  · cases rg <;> simp [props_map, opt_entries, map_get_append, map_get_optHead,
      key_message_id, key_user_id, key_to, key_subject, key_reply_to,
      key_correlation_id, key_content_type, key_content_encoding,
      key_absolute_expiry_time, key_creation_time, key_group_id,
      key_group_sequence, key_reply_to_group_id]

/-! Claim theorems. -/

/-- C1 (amended): the claimed round trip `decode_value (encode_value v) = v`,
consuming the whole encoding, holds for every representable AmqpValue in
which no Decimal32/Decimal64/Decimal128 occurs (for any prefix `rest`, the
decoder consumes exactly the encoding and leaves `rest`).  It fails for the
Decimal variants, whose type codes the decoder does not recognise (see the
counterexample). -/
theorem decode_value_encode_value (v : AmqpValue) (fuel : Nat) (rest : List Nat)
    (hwf : wf_value v = true) (hdf : decimal_free v = true)
    (hfuel : fuelV v ≤ fuel) :
    decode_value fuel (encode_value v ++ rest) = .ok (v, rest) ∧
    decode_value fuel (encode_value v) = .ok (v, []) := by
  refine ⟨round_trip_value v fuel rest hwf hdf hfuel, ?_⟩
  have h := round_trip_value v fuel [] hwf hdf hfuel
  simpa using h

/-- C1 witness: the round trip evaluated on a concrete nested value. -/
theorem decode_value_encode_value_witness :
    wf_value (.list [.string [0x68, 0x69], .map [([0x6b], .uint 7)],
      .int (-3)]) = true ∧
    decode_value 9 (encode_value (.list [.string [0x68, 0x69],
        .map [([0x6b], .uint 7)], .int (-3)]) ++ [0x40]) =
      .ok (.list [.string [0x68, 0x69], .map [([0x6b], .uint 7)], .int (-3)],
        [0x40]) ∧
    decode_value 9 (encode_value (.list [.string [0x68, 0x69],
        .map [([0x6b], .uint 7)], .int (-3)])) =
      .ok (.list [.string [0x68, 0x69], .map [([0x6b], .uint 7)], .int (-3)],
        []) := by
  refine ⟨by decide, ?_, ?_⟩
  · exact (decode_value_encode_value _ 9 [0x40] (by decide) (by decide)
      (by decide)).1
  · exact (decode_value_encode_value _ 9 [0x40] (by decide) (by decide)
      (by decide)).2

/-- C1 counterexample: a Decimal32 value encodes to the 0x74 type code, which
`decode_value` does not recognise, so the claimed round trip fails on the
Decimal variants. -/
theorem decode_value_decimal32_fails :
    encode_value (.decimal32 0) = [0x74, 0, 0, 0, 0] ∧
    decode_value 1 (encode_value (.decimal32 0)) =
      .err (.Decoding "Unknown type code: 0x74") :=
  ⟨rfl, rfl⟩

/-- C3 (amended): the encoder emits the 8-bit length form for Binary, String
and Symbol payloads of at most 255 octets and the 32-bit form above that; a
non-empty list uses List8 up to 255 elements and List32 beyond; a non-empty
map uses Map8 only up to 127 entries (not 255 as claimed) and Map32 beyond;
the empty list is the single octet 0x45 and the empty map the two octets
0xc1 0x00. -/
theorem encoder_shortest_length_forms :
    (∀ bs : List Nat, bs.length ≤ 255 →
      encode_binary bs = 0xa0 :: bs.length :: bs) ∧
    (∀ bs : List Nat, 255 < bs.length →
      encode_binary bs = 0xb0 :: (beBytes 4 bs.length ++ bs)) ∧
    (∀ bs : List Nat, bs.length ≤ 255 →
      encode_string bs = 0xa1 :: bs.length :: bs) ∧
    (∀ bs : List Nat, 255 < bs.length →
      encode_string bs = 0xb1 :: (beBytes 4 bs.length ++ bs)) ∧
    (∀ bs : List Nat, bs.length ≤ 255 →
      encode_symbol bs = 0xa3 :: bs.length :: bs) ∧
    (∀ bs : List Nat, 255 < bs.length →
      encode_symbol bs = 0xb3 :: (beBytes 4 bs.length ++ bs)) ∧
    (∀ xs : List AmqpValue, xs ≠ [] → xs.length ≤ 255 →
      encode_value (.list xs) = 0xc0 :: xs.length :: encode_seq xs) ∧
    (∀ xs : List AmqpValue, 255 < xs.length →
      encode_value (.list xs) = 0xd0 :: (beBytes 4 xs.length ++ encode_seq xs)) ∧
    (∀ m : List (List Nat × AmqpValue), m ≠ [] → m.length ≤ 127 →
      encode_value (.map m) = 0xc1 :: m.length :: encode_entries m) ∧
    (∀ m : List (List Nat × AmqpValue), 127 < m.length →
      encode_value (.map m) = 0xd1 :: (beBytes 4 m.length ++ encode_entries m)) ∧
    encode_value (.list []) = [0x45] ∧
    encode_value (.map []) = [0xc1, 0] := by
  refine ⟨?_, ?_, ?_, ?_, ?_, ?_, ?_, ?_, ?_, ?_, rfl, rfl⟩
  · intro bs h
    simp [encode_binary, h, beBytes_one, Nat.mod_eq_of_lt (by omega : bs.length < 256)]
  · intro bs h
    unfold encode_binary
    rw [if_neg (by omega : ¬ bs.length ≤ 255)]
    simp
  · intro bs h
    simp [encode_string, h, beBytes_one, Nat.mod_eq_of_lt (by omega : bs.length < 256)]
  · intro bs h
    unfold encode_string
    rw [if_neg (by omega : ¬ bs.length ≤ 255)]
    simp
  · intro bs h
    simp [encode_symbol, h, beBytes_one, Nat.mod_eq_of_lt (by omega : bs.length < 256)]
  · intro bs h
    unfold encode_symbol
    rw [if_neg (by omega : ¬ bs.length ≤ 255)]
    simp
  · intro xs hne h
    have hie : xs.isEmpty = false := by
      cases xs
      · exact absurd rfl hne
      · rfl
    simp [encode_value, hie, h, beBytes_one,
      Nat.mod_eq_of_lt (by omega : xs.length < 256)]
  · intro xs h
    have hie : xs.isEmpty = false := by
      cases xs
      · simp at h
      · rfl
    unfold encode_value
    rw [hie, if_neg (by omega : ¬ xs.length ≤ 255)]
    simp
  · intro m hne h
    have hie : m.isEmpty = false := by
      cases m
      · exact absurd rfl hne
      · rfl
    simp [encode_value, hie, h, beBytes_one,
      Nat.mod_eq_of_lt (by omega : m.length < 256)]
  · intro m h
    have hie : m.isEmpty = false := by
      cases m
      · simp at h
      · rfl
    unfold encode_value
    rw [hie, if_neg (by omega : ¬ m.length ≤ 127)]
    simp

/-- C3 witness: the length forms evaluated at concrete payloads. -/
theorem encoder_shortest_length_forms_witness :
    encode_binary [7, 8] = [0xa0, 2, 7, 8] ∧
    encode_value (.list [.null]) = [0xc0, 1, 0x40] ∧
    encode_value (.map [([0x61], .null)]) = [0xc1, 1, 0xa3, 1, 0x61, 0x40] ∧
    encode_value (.list []) = [0x45] ∧
    encode_value (.map []) = [0xc1, 0] := by
  refine ⟨?_, ?_, ?_, encoder_shortest_length_forms.2.2.2.2.2.2.2.2.2.2.1,
    encoder_shortest_length_forms.2.2.2.2.2.2.2.2.2.2.2⟩
  · exact encoder_shortest_length_forms.1 [7, 8] (by norm_num)
  · exact encoder_shortest_length_forms.2.2.2.2.2.2.1 [.null]
      (by simp) (by norm_num)
  · exact encoder_shortest_length_forms.2.2.2.2.2.2.2.2.1 [([0x61], .null)]
      (by simp) (by norm_num)

set_option maxRecDepth 100000 in
/-- C3 counterexample: a 128-entry map has count at most 255, yet the encoder
emits the Map32 type code 0xd1, not the Map8 code 0xc1 the claim requires. -/
theorem encode_map_128_uses_map32 :
    ((List.range 128).map (fun i => ([i], AmqpValue.null))).length = 128 ∧
    (encode_value (.map ((List.range 128).map
      (fun i => ([i], AmqpValue.null))))).take 1 = [0xd1] ∧
    (encode_value (.map ((List.range 128).map
      (fun i => ([i], AmqpValue.null))))).take 1 ≠ [0xc1] := by
  refine ⟨by simp, by decide, by decide⟩

/-- C4: on malformed input the decoder is claimed to always fail with a
decoding error; the empty buffer, truncated fixed-width payloads, invalid
UTF-8, a surrogate Char payload and unknown type codes (reported in the
message) do fail that way, but a buffer truncated before the List8 count
byte panics in the bytes crate (no bounds check precedes the count read)
instead of returning an error. -/
theorem decode_value_malformed_behavior :
    decode_value 1 [] = .err (.Decoding "Unexpected end of data") ∧
    decode_value 1 [0x70, 0, 0] = .err (.Decoding "Insufficient data for uint") ∧
    decode_value 1 [0xa0, 2, 0] = .err (.Decoding "Insufficient data for binary8") ∧
    decode_value 1 [0xa1, 1, 0xff] = .err (.Decoding "Invalid UTF-8 string") ∧
    decode_value 1 [0x73, 0, 0, 0xd8, 0] =
      .err (.Decoding "Invalid UTF-8 code point") ∧
    decode_value 1 [0x74] = .err (.Decoding "Unknown type code: 0x74") ∧
    decode_value 1 [0x56] = .err (.Decoding "Unknown type code: 0x56") ∧
    decode_value 1 [0xc0] = Outcome.panicked ∧
    decode_value 1 [0xd0, 0, 0, 0] = Outcome.panicked ∧
    decode_value 1 [0xc1] = Outcome.panicked ∧
    decode_value 1 [0xd1, 0] = Outcome.panicked :=
  ⟨rfl, rfl, rfl, rfl, rfl, rfl, rfl, rfl, rfl, rfl, rfl⟩

/-- C5 (amended): on an Attached receiver, `receive` returns the next queued
message in FIFO order (or none when the queue is empty) and leaves
`delivery_count` unchanged; the count is instead incremented exactly once
per message at delivery time by `simulate_receive`. -/
theorem receiver_receive_fifo (r : Receiver) (h : r.state = LinkState.Attached) :
    (r.message_queue = [] → r.receive = (.ok none, r)) ∧
    (∀ m q, r.message_queue = m :: q →
      r.receive = (.ok (some m), { r with message_queue := q })) ∧
    (r.receive).2.delivery_count = r.delivery_count ∧
    (∀ m, (r.simulate_receive m).delivery_count = r.delivery_count + 1 ∧
      (r.simulate_receive m).message_queue = r.message_queue ++ [m]) := by
  refine ⟨?_, ?_, ?_, fun m => ⟨rfl, rfl⟩⟩
  · intro hq
    simp [Receiver.receive, h, hq]
  · intro m q hq
    simp [Receiver.receive, h, hq]
  · rcases hq : r.message_queue with _ | ⟨m, q⟩ <;> simp [Receiver.receive, h, hq]

/-- C5 witness: the amended behaviour on a concrete attached receiver. -/
theorem receiver_receive_fifo_witness :
    Receiver.receive ⟨.Attached, 0, [Message.new], 5⟩ =
      (.ok (some Message.new), ⟨.Attached, 0, [], 5⟩) :=
  (receiver_receive_fifo ⟨.Attached, 0, [Message.new], 5⟩ rfl).2.1
    Message.new [] rfl

/-- C5 counterexample: consuming a queued message through `receive` does not
increment `delivery_count` (the claim requires an increment by one). -/
theorem receiver_receive_does_not_increment :
    (Receiver.receive ⟨.Attached, 0, [Message.new], 5⟩).1 =
      .ok (some Message.new) ∧
    (Receiver.receive ⟨.Attached, 0, [Message.new], 5⟩).2.delivery_count = 5 ∧
    (Receiver.receive ⟨.Attached, 0, [Message.new], 5⟩).2.delivery_count ≠
      5 + 1 := by
  refine ⟨rfl, rfl, by decide⟩

/-- C6: on an Attached sender with credit at least one, `send` returns the
next delivery id (fresh whenever the pending ids are below the counter, as
the allocator guarantees), records the message as pending, and decrements
credit by exactly one; with zero credit it fails with a Link error and
changes nothing. -/
theorem sender_send_spec (s : Sender) (msg : Message)
    (h : s.state = LinkState.Attached) :
    (1 ≤ s.credit →
      s.send msg = (.ok s.next_delivery_id,
        { s with
          next_delivery_id := s.next_delivery_id + 1,
          pending_deliveries :=
            insert_delivery s.pending_deliveries s.next_delivery_id msg,
          credit := s.credit - 1 }) ∧
      ((∀ e ∈ s.pending_deliveries, e.1 < s.next_delivery_id) →
        (∀ e ∈ s.pending_deliveries, e.1 ≠ s.next_delivery_id) ∧
        insert_delivery s.pending_deliveries s.next_delivery_id msg =
          s.pending_deliveries ++ [(s.next_delivery_id, msg)])) ∧
    (s.credit = 0 → s.send msg = (.error (.Link "No credit available"), s)) := by
  constructor
  · intro hc
    have hc0 : ¬ s.credit = 0 := by omega
    constructor
    · simp [Sender.send, h, hc0]
    · intro hfresh
      have hne : ∀ e ∈ s.pending_deliveries, e.1 ≠ s.next_delivery_id :=
        fun e he => Nat.ne_of_lt (hfresh e he)
      exact ⟨hne, insert_delivery_of_not_mem _ _ _ hne⟩
  · intro hc
    simp [Sender.send, h, hc]

/-- C6 witness: a concrete attached sender with credit two sends one message;
and one with credit zero fails. -/
theorem sender_send_spec_witness :
    Sender.send ⟨.Attached, 2, [], 1⟩ Message.new =
      (.ok 1, ⟨.Attached, 1, [(1, Message.new)], 2⟩) ∧
    Sender.send ⟨.Attached, 0, [], 1⟩ Message.new =
      (.error (.Link "No credit available"), ⟨.Attached, 0, [], 1⟩) := by
  constructor
  · exact ((sender_send_spec ⟨.Attached, 2, [], 1⟩ Message.new rfl).1
      (by norm_num)).1
  · exact (sender_send_spec ⟨.Attached, 0, [], 1⟩ Message.new rfl).2 rfl

/-- C9: whenever `send` returns an error (sender not Attached, or zero
credit), the sender is returned exactly as it was: credit, pending
deliveries and the next delivery id are unchanged. -/
theorem sender_send_atomic_on_error (s : Sender) (msg : Message)
    (e : AmqpError) (h : (s.send msg).1 = .error e) : (s.send msg).2 = s := by
  by_cases h1 : s.state = LinkState.Attached
  · by_cases h2 : s.credit = 0
    · simp [Sender.send, h1, h2]
    · simp [Sender.send, h1, h2] at h
  · simp [Sender.send, h1]

/-- C9 witness: a detached sender is unchanged by a failing send. -/
theorem sender_send_atomic_on_error_witness :
    (Sender.send ⟨.Detached, 5, [], 1⟩ Message.new).2 =
      ⟨.Detached, 5, [], 1⟩ :=
  sender_send_atomic_on_error ⟨.Detached, 5, [], 1⟩ Message.new
    (.InvalidState "Sender is not attached") rfl

/-- C7: Connection::open succeeds only from the Closed state and
Connection::close only from Open; in any other state each fails with an
invalid-state error and leaves the connection unchanged. -/
theorem connection_state_guards (c : Connection)
    (tcp hdr sh : Except AmqpError Unit) :
    (c.state ≠ ConnectionState.Closed →
      connection_open c tcp hdr =
        (.error (.InvalidState "Connection is not in closed state"), c)) ∧
    (∀ u c2, connection_open c tcp hdr = (.ok u, c2) →
      c.state = ConnectionState.Closed) ∧
    (c.state ≠ ConnectionState.Open →
      connection_close c sh =
        (.error (.InvalidState "Connection is not open"), c)) ∧
    (∀ u c2, connection_close c sh = (.ok u, c2) →
      c.state = ConnectionState.Open) := by
  refine ⟨?_, ?_, ?_, ?_⟩
  · intro h
    simp [connection_open, h]
  · intro u c2 hok
    by_contra h
    simp [connection_open, h] at hok
  · intro h
    simp [connection_close, h]
  · intro u c2 hok
    by_contra h
    simp [connection_close, h] at hok

/-- C7 witness: open on an Opening connection and close on a Closed
connection fail with invalid-state. -/
theorem connection_state_guards_witness :
    connection_open ⟨.Opening, [], false⟩ (.ok ()) (.ok ()) =
      (.error (.InvalidState "Connection is not in closed state"),
        ⟨.Opening, [], false⟩) ∧
    connection_close ⟨.Closed, [], false⟩ (.ok ()) =
      (.error (.InvalidState "Connection is not open"),
        ⟨.Closed, [], false⟩) := by
  constructor
  · exact (connection_state_guards ⟨.Opening, [], false⟩ (.ok ()) (.ok ())
      (.ok ())).1 (by decide)
  · exact (connection_state_guards ⟨.Closed, [], false⟩ (.ok ()) (.ok ())
      (.ok ())).2.2.1 (by decide)

/-- C8: disconnect on a Ready connection cancels the keep-alive task, shuts
the transport down and ends Closed, and is a no-op on a Disconnected
connection; but it never sends the Close performative, because the source
assigns state Closing before testing state == Ready, so the Close branch is
dead code (the claim and the spec say the Close performative is sent). -/
theorem network_disconnect_skips_close :
    NetworkConnection.disconnect ⟨.Ready, true, true⟩ (.ok ()) (.ok ()) =
      (.ok (), ⟨.Closed, false, false⟩,
        [NetEvent.AbortKeepAlive, NetEvent.ShutdownTransport]) ∧
    NetEvent.SendClose ∉
      (NetworkConnection.disconnect ⟨.Ready, true, true⟩ (.ok ()) (.ok ())).2.2 ∧
    NetworkConnection.disconnect ⟨.Disconnected, false, false⟩ (.ok ()) (.ok ()) =
      (.ok (), ⟨.Disconnected, false, false⟩, []) := by
  refine ⟨rfl, by decide, rfl⟩

/-- C10: `is_error` is exactly the negation of `is_success` on every
condition, and every Custom condition, whatever string it carries (even
"amqp:ok"), is classified as an error. -/
theorem is_error_negates_is_success :
    (∀ c : AmqpCondition, c.is_error = !c.is_success) ∧
    (∀ s : String, (AmqpCondition.Custom s).is_error = true) := by
  constructor
  · intro c
    cases c <;> rfl
  · intro s
    rfl

/-- C2 (amended): messages written by `encode_message` consist only of the
header section (as a field-keyed map), the properties section (as a map) and
the body octets; a message holding just those sections — a header, properties
and an optional Value body — round-trips through `decode_message` provided
the section maps are representable and recognised decimal-free values and the
fuel covers them.  The round trip does not hold for all messages: the other
four sections are never written, and a Data, Sequence or Multiple body is
re-read as a Value body (see the counterexample). -/
theorem decode_message_encode_message (h : Header) (p : Properties)
    (b : Option AmqpValue) (fuel : Nat)
    (hwfh : wf_value (.map (header_map h)) = true)
    (hdfh : decimal_free (.map (header_map h)) = true)
    (hfh : fuelV (.map (header_map h)) ≤ fuel)
    (hwfp : wf_value (.map (props_map p)) = true)
    (hdfp : decimal_free (.map (props_map p)) = true)
    (hfp : fuelV (.map (props_map p)) ≤ fuel)
    (hb : b.all (fun v => wf_value v && decimal_free v &&
      decide (fuelV v ≤ fuel)) = true) :
    encode_message ⟨some h, none, none, some p, none, b.map Body.Value, none⟩ =
      .ok (encode_value (.map (header_map h)) ++
        (encode_value (.map (props_map p)) ++ b.elim [] encode_value)) ∧
    decode_message fuel (encode_value (.map (header_map h)) ++
        (encode_value (.map (props_map p)) ++ b.elim [] encode_value)) =
      .ok ⟨some h, none, none, some p, none, b.map Body.Value, none⟩ := by
  have hne1 : encode_value (.map (header_map h)) ≠ [] := encode_value_ne_nil _
  have hne2 : encode_value (.map (props_map p)) ≠ [] := encode_value_ne_nil _
  cases b with
  | none =>
    constructor
    · exact congrArg Except.ok (List.append_assoc _ _ _)
    · dsimp only [decode_message, Option.elim]
      rw [if_neg (by rw [isEmpty_append_left _ _ hne1]; simp)]
      rw [round_trip_value (.map (header_map h)) fuel
        (encode_value (.map (props_map p)) ++ []) hwfh hdfh hfh]
      dsimp only
      rw [if_neg (by rw [isEmpty_append_left _ _ hne2]; simp)]
      rw [round_trip_value (.map (props_map p)) fuel [] hwfp hdfp hfp]
      dsimp only
      rw [if_pos (show ([] : List Nat).isEmpty = true from rfl)]
      rw [header_from_map_header_map, props_from_map_props_map]
      rfl
  | some v =>
    simp only [Option.all, Bool.and_eq_true, decide_eq_true_eq] at hb
    obtain ⟨⟨hv1, hv2⟩, hv3⟩ := hb
    constructor
    · exact congrArg Except.ok (List.append_assoc _ _ _)
    · dsimp only [decode_message, Option.elim]
      rw [if_neg (by rw [isEmpty_append_left _ _ hne1]; simp)]
      rw [round_trip_value (.map (header_map h)) fuel
        (encode_value (.map (props_map p)) ++ encode_value v) hwfh hdfh hfh]
      dsimp only
      rw [if_neg (by rw [isEmpty_append_left _ _ hne2]; simp)]
      rw [round_trip_value (.map (props_map p)) fuel
        (encode_value v) hwfp hdfp hfp]
      dsimp only
      rw [if_neg (by rw [isEmpty_false_of_ne_nil _ (encode_value_ne_nil v)]; simp)]
      have hdec : decode_value fuel (encode_value v) = .ok (v, []) := by
        have hrt := round_trip_value v fuel [] hv1 hv2 hv3
        simpa using hrt
      rw [hdec]
      dsimp only
      rw [header_from_map_header_map, props_from_map_props_map]
      rfl

/-- C2 witness: the round trip of a concrete message with header, properties
and a string Value body. -/
theorem decode_message_encode_message_witness :
    wf_value (.map (header_map ⟨some true, some 3, none, none, some 9⟩)) = true ∧
    decode_message 9
      (encode_value (.map (header_map ⟨some true, some 3, none, none, some 9⟩)) ++
        (encode_value (.map (props_map ⟨none, none, some [0x78], none, none,
          none, none, none, none, none, none, none, none⟩)) ++
         (some (AmqpValue.string [0x68])).elim [] encode_value)) =
      .ok ⟨some ⟨some true, some 3, none, none, some 9⟩, none, none,
        some ⟨none, none, some [0x78], none, none, none, none, none, none,
          none, none, none, none⟩, none,
        (some (AmqpValue.string [0x68])).map Body.Value, none⟩ := by
  refine ⟨by decide, (decode_message_encode_message
    ⟨some true, some 3, none, none, some 9⟩
    ⟨none, none, some [0x78], none, none, none, none, none, none, none,
      none, none, none⟩
    (some (.string [0x68])) 9 (by decide) (by decide) (by decide) (by decide)
    (by decide) (by decide) (by decide)).2⟩

/-- C2 counterexample: a message whose only section is a Data body encodes to
the binary octets alone; decoding them consumes the single value in the
header slot (it is not a map, so it is dropped) and yields an empty message,
so the claimed round trip for every message fails — the Data body is lost,
and the annotation sections are likewise never written. -/
theorem decode_message_data_body_lost :
    encode_message ⟨none, none, none, none, none, some (.Data [1]), none⟩ =
      .ok [0xa0, 1, 1] ∧
    decode_message 1 [0xa0, 1, 1] = .ok Message.new ∧
    Message.new ≠
      (⟨none, none, none, none, none, some (.Data [1]), none⟩ : Message) := by
  refine ⟨rfl, rfl, ?_⟩
  intro hc
  simp [Message.new] at hc

end DumqAmqp
